import Mathlib

/-!
Formal model of the SanctionsAPI screening coordination engine.

The definitions below are a shallow embedding of the Python source files
`utils.py`, `screening_db.py`, `screening_worker.py` and `api_server.py`:
pure functions become Lean functions, the transactional store becomes an
association list passed explicitly, exceptions become `Except`, and
wall-clock timestamps become integers counted in days (the only arithmetic
the source performs on them is `+ timedelta(days = 365)` and ordering).
External primitives that the source calls as black boxes (the `unicodedata`
NFKD + ascii-ignore fold, `pandas.to_datetime`, `hashlib.sha256`,
`date.fromisoformat`) are taken as function parameters, since no claim
depends on their internals; concrete instantiations are supplied in the
witnesses.  Fuzzy-match scores, floats in the source, are modelled as exact
fractions (`Score` below): every score the pipeline produces is a ratio of
small integers on which float arithmetic is value-faithful for the
comparisons the code performs.
-/

namespace SanctionsAPI

/-! ## Exact fractional scores

`rapidfuzz` similarity values are floats of the form `100 * (1 - dist/total)`.
We keep numerator and denominator (`den` always positive by construction)
and compare by cross-multiplication, which is exact. -/

structure Score where
  num : Int
  den : Int
deriving DecidableEq, Repr

def Score.ofInt (n : Int) : Score := ⟨n, 1⟩

/-- Value order: `a < b` as rational numbers (dens are positive throughout). -/
def Score.lt (a b : Score) : Prop := a.num * b.den < b.num * a.den

def Score.le (a b : Score) : Prop := a.num * b.den ≤ b.num * a.den

instance (a b : Score) : Decidable (Score.lt a b) := by unfold Score.lt; infer_instance

instance (a b : Score) : Decidable (Score.le a b) := by unfold Score.le; infer_instance

/-- Python `max(a, b)` (first argument wins ties). -/
def Score.max2 (a b : Score) : Score := if Score.lt a b then b else a

/-- Python `int(x)` for the nonnegative scores produced here. -/
def Score.toInt (s : Score) : Int := Int.tdiv s.num s.den

/-- Python `a - n` for an integer penalty `n`. -/
def Score.subInt (s : Score) (n : Int) : Score := ⟨s.num - n * s.den, s.den⟩

theorem Score.le_of_not_lt {a b : Score} (h : ¬ Score.lt a b) : Score.le b a := by
  unfold Score.lt at h
  unfold Score.le
  omega

/-! ## ASCII character classes and Python string helpers

`_normalize_text` works on the result of `.encode("ascii","ignore")`, so the
regex classes `\w` and `\s` only ever see ASCII characters; we define them by
membership in concrete character lists, which keeps every proof about them a
finite check. -/

def asciiUppercase : List Char :=
  ['A','B','C','D','E','F','G','H','I','J','K','L','M',
   'N','O','P','Q','R','S','T','U','V','W','X','Y','Z']

def asciiLowercase : List Char :=
  ['a','b','c','d','e','f','g','h','i','j','k','l','m',
   'n','o','p','q','r','s','t','u','v','w','x','y','z']

def asciiDigits : List Char := ['0','1','2','3','4','5','6','7','8','9']

/-- Python regex `\w` on ASCII input: `[A-Za-z0-9_]`. -/
def isWordAscii (c : Char) : Bool :=
  c ∈ asciiUppercase || c ∈ asciiLowercase || c ∈ asciiDigits || c == '_'

/-- Python regex `\s` on ASCII input: space, tab, newline, CR, VT, FF. -/
def isSpaceAscii (c : Char) : Bool :=
  c ∈ ([' ', '\t', '\n', '\r', Char.ofNat 11, Char.ofNat 12] : List Char)

def upperLowerTable : List (Char × Char) :=
  [('A','a'),('B','b'),('C','c'),('D','d'),('E','e'),('F','f'),('G','g'),
   ('H','h'),('I','i'),('J','j'),('K','k'),('L','l'),('M','m'),('N','n'),
   ('O','o'),('P','p'),('Q','q'),('R','r'),('S','s'),('T','t'),('U','u'),
   ('V','v'),('W','w'),('X','x'),('Y','y'),('Z','z')]

/-- Python `str.lower()` restricted to ASCII (all call sites feed ASCII). -/
def lowerChar (c : Char) : Char :=
  match upperLowerTable.find? (fun p => p.1 == c) with
  | some p => p.2
  | none => c

/-- Characters fixed by the whole normalisation pipeline:
lowercase letters, digits, underscore, single space. -/
def lfixChar (c : Char) : Bool :=
  c ∈ asciiLowercase || c ∈ asciiDigits || c == '_' || c == ' '

/-- One step of `re.sub(r"\s+", " ", s)`, folded from the right: a run of
whitespace contributes a single `' '`. -/
def collapseStep (c : Char) (acc : List Char) : List Char :=
  if isSpaceAscii c then
    if acc.head? = some ' ' then acc else ' ' :: acc
  else c :: acc

def collapseWs (l : List Char) : List Char := l.foldr collapseStep []

/-- Python `str.strip()` (on input whose whitespace is already ASCII). -/
def trimSpaces (l : List Char) : List Char :=
  ((l.dropWhile isSpaceAscii).reverse.dropWhile isSpaceAscii).reverse

def pyStrip (s : String) : String := (trimSpaces s.data).asString

def pyLower (s : String) : String := (s.data.map lowerChar).asString

def pyTake (n : Nat) (s : String) : String := (s.data.take n).asString

def strStartsWith (s pre : String) : Bool := pre.data.isPrefixOf s.data

def listIsInfix (sub : List Char) : List Char → Bool
  | [] => sub.isEmpty
  | c :: rest => sub.isPrefixOf (c :: rest) || listIsInfix sub rest

def strContainsSub (s sub : String) : Bool := listIsInfix sub.data s.data

/-- Python `str.split(sep)` for a single-character separator. -/
def splitOnChar (sep : Char) (l : List Char) : List (List Char) :=
  l.foldr
    (fun c acc =>
      if c = sep then [] :: acc
      else
        match acc with
        | [] => [[c]]
        | h :: t => (c :: h) :: t)
    [[]]

/-- Python `str.split()` with no argument: split on whitespace runs,
dropping empty pieces. -/
def splitWsRaw (l : List Char) : List (List Char) :=
  l.foldr
    (fun c acc =>
      if isSpaceAscii c then [] :: acc
      else
        match acc with
        | [] => [[c]]
        | h :: t => (c :: h) :: t)
    [[]]

def splitWs (s : String) : List String :=
  ((splitWsRaw s.data).filter (fun p => p ≠ [])).map List.asString

def splitOnSemicolon (s : String) : List String :=
  (splitOnChar ';' s.data).map List.asString

def splitOnNewline (s : String) : List String :=
  (splitOnChar '\n' s.data).map List.asString

def joinSpace (l : List String) : String :=
  (List.intercalate [' '] (l.map String.data)).asString

/-! ## `_normalize_text` (utils.py)

```
s = unicodedata.normalize("NFKD", s).encode("ascii", "ignore").decode("utf-8")
s = re.sub(r"[^\w\s]", "", s)
return re.sub(r"\s+", " ", s).lower().strip()
```

The composite `encode("ascii","ignore") ∘ NFKD` acts characterwise; it is the
`fold` parameter.  `nfkdAscii` is the concrete instantiation used by the rest
of the model: identity on ASCII (NFKD leaves ASCII alone), dropping other
characters (characters whose decomposition contains ASCII letters keep them in
CPython; no claim depends on non-ASCII inputs, so the model drops them). -/

def keepChar (c : Char) : Bool := isWordAscii c || isSpaceAscii c

def normalizeCharsWith (fold : Char → List Char) (l : List Char) : List Char :=
  trimSpaces ((collapseWs ((l.flatMap fold).filter keepChar)).map lowerChar)

def normalize_textWith (fold : Char → List Char) (s : String) : String :=
  (normalizeCharsWith fold s.data).asString

def nfkdAscii (c : Char) : List Char := if c.toNat < 128 then [c] else []

def normalize_text (s : String) : String := normalize_textWith nfkdAscii s

/-! ## `_normalize_dob` and `derive_entity_key` (utils.py)

`pandas.to_datetime(..., errors="coerce").strftime("%Y-%m-%d")` is the
`parse` parameter (`none` models both `NaT` and the raised-and-caught
exception). -/

def normalize_dob (parse : String → Option String) (dob : Option String) : Option String :=
  match dob with
  | none => none
  | some d => if d = "" then none else parse d

def derive_entity_key (hash : String → String) (fold : Char → List Char)
    (parse : String → Option String)
    (display_name entity_type : String) (dob : Option String) : String :=
  let norm_name := normalize_textWith fold (if display_name = "" then "" else display_name)
  let et := pyLower (pyStrip (if entity_type = "" then "Person" else entity_type))
  let dob_str :=
    match dob with
    | none => ""
    | some d =>
      if d = "" then ""
      else
        -- f-string renders a failed parse (None) as the text "None"
        match parse d with
        | some x => x
        | none => "None"
  hash (norm_name ++ "|" ++ et ++ "|" ++ dob_str)

/-! ## Fuzzy matching (utils.py `get_best_name_matches` and helpers)

`fuzz.token_set_ratio` from rapidfuzz: split both strings into token sets,
and return the maximum of the normalised indel similarities between
(sorted intersection), (intersection + sorted left difference) and
(intersection + sorted right difference); when one token set contains the
other (and the intersection is nonempty) the result is 100.  The normalised
indel similarity of two strings of total length `n` at indel distance `d`
is `100 * (n - d) / n` (100 for two empty strings), and the indel distance
is `len₁ + len₂ - 2 * LCS`. -/

def lcsNextRow : List Char → List Nat → Char → Nat → Nat → List Nat
  | [], _, _, _, _ => []
  | ca :: as, prev, cb, diag, left =>
    let up := prev.headD 0
    let cur := if ca = cb then diag + 1 else max left up
    cur :: lcsNextRow as prev.tail cb up cur

def lcsLen (a b : List Char) : Nat :=
  (b.foldl (fun prev cb => lcsNextRow a prev cb 0 0) (a.map (fun _ => 0))).getLastD 0

def indelDist (a b : List Char) : Nat := a.length + b.length - 2 * lcsLen a b

/-- Normalised indel similarity scaled to 0..100, exact. -/
def normSim (dist total : Nat) : Score :=
  if total = 0 then ⟨100, 1⟩ else ⟨100 * ((total : Int) - (dist : Int)), (total : Int)⟩

/-- Python `sorted` on strings: lexicographic by code point. -/
def listCharLe : List Char → List Char → Bool
  | [], _ => true
  | _ :: _, [] => false
  | a :: as, b :: bs =>
    if a.toNat < b.toNat then true
    else if b.toNat < a.toNat then false
    else listCharLe as bs

def strLe (a b : String) : Bool := listCharLe a.data b.data

def insertStr (x : String) : List String → List String
  | [] => [x]
  | y :: ys => if strLe x y then x :: y :: ys else y :: insertStr x ys

def sortStrings (l : List String) : List String := l.foldr insertStr []

def token_set_ratioQ (s1 s2 : String) : Score :=
  let ta := (sortStrings (splitWs s1)).dedup
  let tb := (sortStrings (splitWs s2)).dedup
  let sect := ta.filter (fun t => t ∈ tb)
  let dab := ta.filter (fun t => t ∉ tb)
  let dba := tb.filter (fun t => t ∉ ta)
  if sect ≠ [] ∧ (dab = [] ∨ dba = []) then ⟨100, 1⟩
  else
    let dabJ := joinSpace dab
    let dbaJ := joinSpace dba
    let sectLen := (joinSpace sect).length
    let bonus := if sectLen ≠ 0 then 1 else 0
    let abLen := dabJ.length
    let baLen := dbaJ.length
    let sectAbLen := sectLen + bonus + abLen
    let sectBaLen := sectLen + bonus + baLen
    let result := normSim (indelDist dabJ.data dbaJ.data) (sectAbLen + sectBaLen)
    if sectLen = 0 then result
    else
      Score.max2 (Score.max2 result (normSim (bonus + abLen) (sectLen + sectAbLen)))
        (normSim (bonus + baLen) (sectLen + sectBaLen))

/-- Stop-word set used by `preprocess` inside `get_best_name_matches`. -/
def blacklist : List String :=
  ["the","ltd","llc","inc","co","company","corp","plc","limited",
   "real","estate","group","services","solutions","hub","global",
   "trust","association","federation","union","committee","organization",
   "network","centre","center","international","foundation","institute","bank"]

/-- `preprocess`: normalise, drop stop words; returns the joined cleaned
string and the token set (here: the deduplicated token list). -/
def preprocess (name : String) : String × List String :=
  let tokens := (splitWs (normalize_text name)).filter (fun w => w ≠ "" && w ∉ blacklist)
  (joinSpace tokens, tokens.dedup)

structure MatchHit where
  clean : String
  score : Score
  idx : Nat
deriving DecidableEq, Repr

/-- The body of the candidate loop of `get_best_name_matches`. -/
def gbnm_keep (threshold : Int) (sClean : String) (sTokens : List String)
    (i : Nat) (cClean : String) (cTokens : List String) : Option MatchHit :=
  let score := token_set_ratioQ sClean cClean
  if Score.lt score (Score.ofInt threshold) then none
  else
    let overlap := (sTokens.filter (fun t => t ∈ cTokens)).length
    let tokenUnion := (sTokens ++ cTokens.filter (fun t => t ∉ sTokens)).length
    let jaccard : Score := ⟨(overlap : Int), (max 1 tokenUnion : Nat)⟩
    -- exact(ish) short matches
    if sTokens.length ≤ 2 ∧ sClean = cClean then some ⟨cClean, score, i⟩
    else if overlap < min 2 sTokens.length then none
    else if 2 < sTokens.length ∧ Score.lt jaccard ⟨2, 5⟩ then none
    else
      let score := if 2 < ((sTokens.length : Int) - (cTokens.length : Int)).natAbs
        then Score.subInt score 15 else score
      let score := if cTokens.length ≤ 2 ∧ 3 < sTokens.length
        then Score.subInt score 20 else score
      if Score.le (Score.ofInt threshold) score then some ⟨cClean, score, i⟩ else none

def gbnm_loop (threshold : Int) (sClean : String) (sTokens : List String) :
    Nat → List String → List MatchHit
  | _, [] => []
  | i, c :: cs =>
    let pc := preprocess c
    match gbnm_keep threshold sClean sTokens i pc.1 pc.2 with
    | some h => h :: gbnm_loop threshold sClean sTokens (i + 1) cs
    | none => gbnm_loop threshold sClean sTokens (i + 1) cs

/-- Stable descending insertion by a `Score` key: models Python
`sorted(..., key = score, reverse = True)` (stable, ties keep input order). -/
def insertScoreDesc (key : α → Score) (x : α) : List α → List α
  | [] => [x]
  | y :: ys => if Score.le (key y) (key x) then x :: y :: ys else y :: insertScoreDesc key x ys

def sortScoreDesc (key : α → Score) : List α → List α
  | [] => []
  | x :: xs => insertScoreDesc key x (sortScoreDesc key xs)

def get_best_name_matches (search_name : String) (candidates : List String)
    (limit : Nat) (threshold : Int) : List MatchHit :=
  let sp := preprocess search_name
  (sortScoreDesc (fun h => h.score) (gbnm_loop threshold sp.1 sp.2 0 candidates)).take limit

/-! ## Watchlist rows and the matcher (utils.py `perform_opensanctions_check`) -/

/-- One row of the snapshot dataframe (projected columns; `name_norm` and
`birth_norm` are recomputed where the source uses them). -/
structure OsnRow where
  schema : String
  name : Option String
  birth_date : Option String
  program_ids : Option String
  dataset : Option String
  sanctions_text : Option String
  positions : Option String
  source_type : String
deriving DecidableEq, Repr

/-- `_safe_str` on an optional column value (None and NaN both become ""). -/
def optStr (o : Option String) : String :=
  match o with
  | some s => s
  | none => ""

/-- `_derive_regime_like_row`. -/
def derive_regime_like_row (r : OsnRow) : Option String :=
  let prog := pyStrip (optStr r.program_ids)
  if prog ≠ "" then some (pyStrip ((splitOnSemicolon prog).headD ""))
  else
    let sanc := pyStrip (optStr r.sanctions_text)
    let fromSanc : Option String :=
      if sanc ≠ "" then
        let c0 := (splitOnSemicolon sanc).headD ""
        let first := pyStrip (if c0 ≠ "" then c0 else (splitOnNewline sanc).headD "")
        if first ≠ "" then some first else none
      else none
    match fromSanc with
    | some x => some x
    | none =>
      let ds := pyStrip (optStr r.dataset)
      if ds ≠ "" then some ds else none

structure CheckSummary where
  status : String
  source : String
  date : String
deriving DecidableEq, Repr

structure ManualOverride where
  kind : String
  actor : String
  reason : Option String
  overridden_at : String
  previous_status : Option String
  previous_risk_level : String
  previous_score : Score
  previous_sanctions_name : Option String
deriving DecidableEq, Repr

/-- The result dictionary produced by the matcher (and stored as
`result_json`).  The constant `Topics` list is omitted. -/
structure CheckResult where
  sanctionsName : Option String
  birthDate : Option String
  regime : Option String
  position : Option String
  isPep : Bool
  isSanctioned : Bool
  confidence : String
  score : Score
  riskLevel : String
  topMatches : List (String × Int)
  matchFound : Bool
  checkSummary : CheckSummary
  manualOverride : Option ManualOverride
deriving DecidableEq, Repr

/-- `_empty_no_match_result`. -/
def empty_no_match_result (source_label : String) (nowStr : String) : CheckResult :=
  { sanctionsName := none
    birthDate := none
    regime := none
    position := none
    isPep := false
    isSanctioned := false
    confidence := "Very High"
    score := Score.ofInt 0
    riskLevel := "Cleared"
    topMatches := []
    matchFound := false
    checkSummary := { status := "Cleared", source := source_label, date := nowStr }
    manualOverride := none }

/-- Python truthiness of an optional string. -/
def truthyOpt (o : Option String) : Bool :=
  match o with
  | some s => s ≠ ""
  | none => false

/-- `parse_dob` (inner helper of the matcher): `str(None)` is `"None"` and is
caught by the lowercase membership test, so a missing column value parses to
null. -/
def parse_dob_field (parse : String → Option String) (v : Option String) : Option String :=
  match v with
  | none => none
  | some s =>
    if s = "" || pyLower s ∈ (["nan", "none", "nat"] : List String) then none
    else if s = "" then none else parse s

/-- `_top_name_suggestions`: name-only fuzzy suggestions, deduplicated by
display name keeping the highest score. -/
def top_name_suggestions (pool : List OsnRow) (search_name : String)
    (limit : Nat) (threshold : Int) : List (String × Int) :=
  if pool.isEmpty then []
  else
    let candidates := pool.map (fun r => optStr r.name)
    let hits := get_best_name_matches search_name candidates (limit * 3) threshold
    let seen := hits.foldl
      (fun (acc : List (String × Score)) h =>
        let display :=
          match pool.get? h.idx with
          | some r =>
            match r.name with
            | some n => if n = "" then h.clean else n
            | none => h.clean
          | none => h.clean
        if display = "" then acc
        else
          match acc.find? (fun p => p.1 == display) with
          | none => acc ++ [(display, h.score)]
          | some q =>
            if Score.lt q.2 h.score then
              acc.map (fun p => if p.1 == display then (display, h.score) else p)
            else acc)
      []
    ((sortScoreDesc (fun p => p.2) seen).take limit).map (fun p => (p.1, Score.toInt p.2))

/-- The strict-DOB candidate filter of `best_match_from`. -/
def dob_ok (parse : String → Option String) (pool : List OsnRow) (nd : String)
    (h : MatchHit) : Bool :=
  match pool.get? h.idx with
  | some r =>
    match parse_dob_field parse r.birth_date with
    | some t => t ≠ "" && t == nd
    | none => false
  | none => false

/-- `best_match_from` (inner helper of the matcher): best fuzzy match of a
pool, applying the strict DOB rule when a canonical DOB was supplied.
Note the threshold used by the matcher is 75. -/
def best_match_from (parse : String → Option String) (norm_name : String)
    (norm_dob : Option String) (pool : List OsnRow)
    (top_limit : Nat) (threshold : Int) : Option (OsnRow × Score) :=
  if pool.isEmpty then none
  else
    let hits := get_best_name_matches norm_name (pool.map (fun r => optStr r.name))
      top_limit threshold
    if hits.isEmpty then none
    else
      let hits2 :=
        if truthyOpt norm_dob then hits.filter (dob_ok parse pool (norm_dob.getD ""))
        else hits
      if hits2.isEmpty then none
      else
        match sortScoreDesc (fun h => h.score) hits2 with
        | [] => none
        | h :: _ => (pool.get? h.idx).map (fun r => (r, h.score))

/-- Schema filter: Person rows, or the organisation-like schemas. -/
def matcher_schema_pool (df : List OsnRow) (entity_type : String) : List OsnRow :=
  let et := pyLower (if entity_type = "" then "Person" else entity_type)
  if et = "organization" then
    df.filter (fun r => pyLower r.schema ∈ (["organization", "legalentity", "company"] : List String))
  else df.filter (fun r => pyLower r.schema == "person")

def sanc_pool (df : List OsnRow) (entity_type : String) : List OsnRow :=
  (matcher_schema_pool df entity_type).filter (fun r => pyLower r.source_type == "sanctions")

def pep_pool (df : List OsnRow) (entity_type : String) : List OsnRow :=
  (matcher_schema_pool df entity_type).filter (fun r => pyLower r.source_type == "peps")

/-- Source label of a sanctions verdict. -/
def sanctions_source_label (sRow : OsnRow) (pepMatched : Bool) : String :=
  let ds := pyStrip (optStr sRow.dataset)
  let base := if ds = "" then "OpenSanctions – Sanctions" else ds
  if pepMatched then base ++ "; Consolidated PEP list" else base

/-- `perform_opensanctions_check`: the Matcher.  `parse` embeds
`pandas.to_datetime`, `nowStr` the formatted wall clock; the best-effort CSV
search log (out of scope) is omitted. -/
def perform_opensanctions_check (parse : String → Option String) (nowStr : String)
    (df : List OsnRow) (name : String) (dob : Option String)
    (entity_type : String) : CheckResult :=
  if df.isEmpty then empty_no_match_result "OpenSanctions" nowStr
  else
    let suggestions := top_name_suggestions (sanc_pool df entity_type ++ pep_pool df entity_type)
      (normalize_text name) 5 60
    match best_match_from parse (normalize_text name) (normalize_dob parse dob)
        (sanc_pool df entity_type) 50 75,
      best_match_from parse (normalize_text name) (normalize_dob parse dob)
        (pep_pool df entity_type) 50 75 with
    | some (sRow, sScore), pRes =>
      { sanctionsName := sRow.name
        birthDate := parse_dob_field parse sRow.birth_date
        regime := derive_regime_like_row sRow
        position := sRow.positions
        isPep := pRes.isSome
        isSanctioned := true
        confidence :=
          if Score.le (Score.ofInt 90) sScore then "High"
          else if Score.le (Score.ofInt 80) sScore then "Medium" else "Low"
        score := sScore
        riskLevel := "High Risk"
        topMatches := suggestions
        matchFound := true
        checkSummary :=
          { status := "Fail Sanction"
            source := sanctions_source_label sRow pRes.isSome
            date := nowStr }
        manualOverride := none }
    | none, some (pRow, pScore) =>
      { sanctionsName := pRow.name
        birthDate := parse_dob_field parse pRow.birth_date
        regime := derive_regime_like_row pRow
        position := pRow.positions
        isPep := true
        isSanctioned := false
        confidence :=
          if Score.le (Score.ofInt 90) pScore then "High"
          else if Score.le (Score.ofInt 80) pScore then "Medium" else "Low"
        score := pScore
        riskLevel := "Medium Risk"
        topMatches := suggestions
        matchFound := true
        checkSummary :=
          { status := "Fail PEP"
            source := "Consolidated PEP list"
            date := nowStr }
        manualOverride := none }
    | none, none =>
      { empty_no_match_result "OpenSanctions" nowStr with topMatches := suggestions }

/-! ## Result cache and job queue (screening_db.py)

The transactional store is modelled as an association list of
`screened_entities` rows keyed by `entity_key` (the primary key keeps at
most one row per key) plus a list of `screening_jobs` rows.  `NOW()` is the
explicit `now : Int` parameter, counted in days so that
`timedelta(days = 365)` is `+ 365`. -/

structure ScreenedRow where
  display_name : String
  normalized_name : String
  date_of_birth : Option String
  entity_type : String
  last_screened_at : Int
  screening_valid_until : Int
  status : String
  risk_level : String
  confidence : String
  score : Score
  uk_sanctions_flag : Bool
  pep_flag : Bool
  result_json : CheckResult
  last_requestor : Option String
  business_reference : Option String
  reason_for_check : Option String
  updated_at : Int
  screened_against_uk_hash : Option String
  screened_against_refresh_run_id : Option String
  manual_override_uk_hash : Option String
  manual_override_stale : Bool
deriving DecidableEq, Repr

abbrev ScreenDB := List (String × ScreenedRow)

def dbFind (db : ScreenDB) (k : String) : Option ScreenedRow :=
  match db.find? (fun p => p.1 == k) with
  | some p => some p.2
  | none => none

/-- `INSERT ... ON CONFLICT (entity_key) DO UPDATE`: the row at `k` is
replaced or inserted; every other row is untouched. -/
def dbSet (db : ScreenDB) (k : String) (r : ScreenedRow) : ScreenDB :=
  (k, r) :: db.filter (fun p => !(p.1 == k))

/-- `get_valid_screening`: return `result_json` iff
`screening_valid_until > NOW()` and `manual_override_stale` is false. -/
def get_valid_screening (db : ScreenDB) (k : String) (now : Int) : Option CheckResult :=
  match dbFind db k with
  | none => none
  | some r =>
    if now < r.screening_valid_until then
      if r.manual_override_stale then none else some r.result_json
    else none

def REASON_FOR_CHECK_ALLOWED : List String :=
  ["Client Onboarding", "Claim Payment", "Business Partner Payment",
   "Business Partner Due Diligence", "Periodic Re-Screen", "Ad-Hoc Compliance Review"]

/-- `_uk_sanctions_from_result` (same predicate is inlined in the worker). -/
def uk_sanctions_from_result (r : CheckResult) : Bool :=
  (["uk", "hmt", "ofsi", "hm treasury", "uk fcdo", "uk financial sanctions"] : List String).any
    (fun p => strContainsSub (pyLower r.checkSummary.source) p)

/-- `upsert_screening`: insert or replace a cache row; validity becomes
`now + 365` days; the manual-override markers are cleared.  `isoDate`
embeds `date.fromisoformat` (exceptions swallowed to null). -/
def upsert_screening (isoDate : String → Option String) (db : ScreenDB)
    (entity_key display_name normalized_name : String) (date_of_birth : Option String)
    (entity_type requestor : String) (business_reference reason_for_check : Option String)
    (result : CheckResult) (uk_hash run_id : Option String) (now : Int) :
    Except String ScreenDB :=
  let br := pyStrip (optStr business_reference)
  let rfc := pyStrip (optStr reason_for_check)
  if br = "" then .error "business_reference is required"
  else if rfc ∉ REASON_FOR_CHECK_ALLOWED then
    .error "reason_for_check is required and must be a valid enum value"
  else
    let status := if result.checkSummary.status = "" then "Unknown" else result.checkSummary.status
    let dob_date := date_of_birth.bind (fun s => isoDate (pyTake 10 (pyStrip s)))
    .ok (dbSet db entity_key
      { display_name := display_name
        normalized_name := normalized_name
        date_of_birth := dob_date
        entity_type := if entity_type = "" then "Person" else entity_type
        last_screened_at := now
        screening_valid_until := now + 365
        status := status
        risk_level := result.riskLevel
        confidence := result.confidence
        score := result.score
        uk_sanctions_flag := uk_sanctions_from_result result
        pep_flag := result.isPep
        result_json := result
        last_requestor := some requestor
        business_reference := some br
        reason_for_check := some rfc
        updated_at := now
        screened_against_uk_hash := uk_hash
        screened_against_refresh_run_id := run_id
        manual_override_uk_hash := none
        manual_override_stale := false })

/-- `update_cached_screening_metadata`: refresh request metadata on an
existing row without touching verdict or validity.  (Defined by the store
layer; the dispatcher never calls it — see the C2 theorems.) -/
def update_cached_screening_metadata (db : ScreenDB) (entity_key requestor : String)
    (business_reference reason_for_check : Option String) (now : Int) :
    Except String ScreenDB :=
  let br := pyStrip (optStr business_reference)
  let rfc := pyStrip (optStr reason_for_check)
  if br = "" then .error "business_reference is required"
  else if rfc ∉ REASON_FOR_CHECK_ALLOWED then
    .error "reason_for_check is required and must be a valid enum value"
  else
    .ok (db.map (fun p =>
      if p.1 == entity_key then
        (p.1, { p.2 with last_requestor := some requestor, business_reference := some br,
                         reason_for_check := some rfc, updated_at := now })
      else p))

structure JobRow where
  job_id : String
  entity_key : String
  name : String
  date_of_birth : Option String
  entity_type : String
  requestor : String
  business_reference : Option String
  reason_for_check : Option String
  reason : String
  refresh_run_id : Option String
  force_rescreen : Bool
  status : String
deriving DecidableEq, Repr

def get_pending_running_count (jobs : List JobRow) : Nat :=
  (jobs.filter (fun j => j.status == "pending" || j.status == "running")).length

def has_pending_or_running_job (jobs : List JobRow) (entity_key : String) : Bool :=
  jobs.any (fun j => j.entity_key == entity_key && (j.status == "pending" || j.status == "running"))

/-- `enqueue_job`: validate required request metadata, then insert a pending
row; the fresh UUID is the `newId` parameter. -/
def enqueue_job (jobs : List JobRow) (newId : String) (entity_key name : String)
    (date_of_birth : Option String) (entity_type requestor : String)
    (business_reference reason_for_check : Option String) (reason : String)
    (refresh_run_id : Option String) (force_rescreen : Bool) :
    Except String (String × List JobRow) :=
  let br := pyStrip (optStr business_reference)
  let rfc := pyStrip (optStr reason_for_check)
  if br = "" then .error "business_reference is required"
  else if rfc ∉ REASON_FOR_CHECK_ALLOWED then
    .error "reason_for_check is required and must be a valid enum value"
  else
    .ok (newId, jobs ++
      [{ job_id := newId
         entity_key := entity_key
         name := name
         date_of_birth := date_of_birth
         entity_type := if entity_type = "" then "Person" else entity_type
         requestor := requestor
         business_reference := some br
         reason_for_check := some rfc
         reason := if reason = "" then "manual" else reason
         refresh_run_id := refresh_run_id
         force_rescreen := force_rescreen
         status := "pending" }])

/-- The per-row effect of the `mark_manual_overrides_stale` UPDATE: the
WHERE clause is `manual_override_uk_hash IS NOT NULL AND
COALESCE(manual_override_uk_hash,'') <> COALESCE($1,'') AND
manual_override_stale = FALSE`, with `$1 = latest_uk_hash or ""`. -/
def mark_stale_row (latest_uk_hash : String) (now : Int) (r : ScreenedRow) : ScreenedRow :=
  if r.manual_override_uk_hash.isSome
      && !((optStr r.manual_override_uk_hash) == (if latest_uk_hash = "" then "" else latest_uk_hash))
      && r.manual_override_stale == false then
    { r with manual_override_stale := true, updated_at := now }
  else r

/-- `mark_manual_overrides_stale`: flag every non-stale manual override
whose recorded hash differs from the latest `uk_hash`. -/
def mark_manual_overrides_stale (db : ScreenDB) (latest_uk_hash : String) (now : Int) :
    ScreenDB :=
  db.map (fun p => (p.1, mark_stale_row latest_uk_hash now p.2))

/-- The latest `watchlist_refresh_runs` row, as read by
`mark_false_positive` (a parameter: the runs table is outside the claims). -/
structure RefreshRunInfo where
  refresh_run_id : String
  uk_hash : Option String
deriving DecidableEq, Repr

/-- `mark_false_positive`: overwrite the verdict of an existing row with a
Cleared - False Positive block carrying an audit trail; stamp
`manual_override_uk_hash` with the current `uk_hash`.  Returns `none` and
leaves the store untouched when no row exists. -/
def mark_false_positive (db : ScreenDB) (latestRun : Option RefreshRunInfo)
    (entity_key actor : String) (reason : Option String) (now : Int)
    (nowStr nowIso : String) : Option CheckResult × ScreenDB :=
  match dbFind db entity_key with
  | none => (none, db)
  | some row =>
    let old := row.result_json
    let latest_hash : Option String :=
      match latestRun with
      | some run =>
        match run.uk_hash with
        | some h => if h = "" then none else some h
        | none => none
      | none => none
    let latest_run_id : Option String := latestRun.map (fun run => run.refresh_run_id)
    let cleanedReason : Option String :=
      if pyStrip (optStr reason) = "" then none else some (pyStrip (optStr reason))
    let mo : ManualOverride :=
      { kind := "false_positive_clear"
        actor := actor
        reason := cleanedReason
        overridden_at := nowIso
        previous_status := some old.checkSummary.status
        previous_risk_level := old.riskLevel
        previous_score := old.score
        previous_sanctions_name := old.sanctionsName }
    let newResult : CheckResult :=
      { old with
        sanctionsName := none
        birthDate := none
        regime := none
        isSanctioned := false
        isPep := false
        matchFound := false
        riskLevel := "Cleared"
        confidence := "Manual Review"
        score := Score.ofInt 0
        manualOverride := some mo
        checkSummary :=
          { status := "Cleared - False Positive"
            source := (if old.checkSummary.source = "" then "Manual Review"
                       else old.checkSummary.source) ++ "; Manual override"
            date := nowStr } }
    let newRow : ScreenedRow :=
      { row with
        status := "Cleared - False Positive"
        risk_level := "Cleared"
        confidence := "Manual Review"
        score := Score.ofInt 0
        uk_sanctions_flag := false
        pep_flag := false
        result_json := newResult
        last_requestor := some actor
        last_screened_at := now
        screening_valid_until := now + 365
        updated_at := now
        screened_against_uk_hash := latest_hash
        screened_against_refresh_run_id := latest_run_id
        manual_override_uk_hash := latest_hash
        manual_override_stale := false }
    (some newResult, dbSet db entity_key newRow)

/-! ## Dispatcher (api_server.py `check_opensanctions`, DB path) -/

structure OpCheckRequest where
  name : String
  dob : Option String
  entity_type : Option String
  requestor : Option String
deriving DecidableEq, Repr

structure EngineState where
  screened : ScreenDB
  jobs : List JobRow
deriving DecidableEq, Repr

inductive DispatchOutcome where
  /-- 400 with a stable machine code. -/
  | validationError (code : String)
  /-- 200 with the cached verdict (plus `entity_key`). -/
  | reused (result : CheckResult) (entity_key : String)
  /-- 202 with a job id. -/
  | queued (job_id : String)
  /-- 200 with a fresh synchronous verdict. -/
  | completed (result : CheckResult) (entity_key : String)
  /-- An uncaught store-layer exception (surfaced as a generic 500). -/
  | storeError (msg : String)
deriving DecidableEq, Repr

/-- Request fields after the dispatcher's cleanup. -/
def reqName (req : OpCheckRequest) : String := pyStrip req.name

def reqDob (req : OpCheckRequest) : Option String :=
  match req.dob with
  | some d => if pyStrip d = "" then none else some (pyStrip d)
  | none => none

def reqEntityType (req : OpCheckRequest) : String :=
  match req.entity_type with
  | some s => if s = "" then "Person" else s
  | none => "Person"

def reqRequestor (req : OpCheckRequest) : String := pyStrip (optStr req.requestor)

/-- External primitives of entity keying: `hashlib.sha256(...).hexdigest()`. -/
structure KeyEnv where
  sha256hex : String → String

/-- External primitives of the matcher and store:
`pandas.to_datetime`, `date.fromisoformat`, the formatted wall clock, and
the loaded snapshot. -/
structure MatchEnv where
  parse : String → Option String
  isoDate : String → Option String
  nowStr : String
  df : List OsnRow

def opcheck_entity_key (kenv : KeyEnv) (parse : String → Option String)
    (req : OpCheckRequest) : String :=
  derive_entity_key kenv.sha256hex nfkdAscii parse (reqName req) (reqEntityType req) (reqDob req)

/-- `check_opensanctions` (the dispatcher): validate, reuse a valid cached
verdict, otherwise enqueue under queue pressure at or above `threshold`,
otherwise run the Matcher inline and upsert.  A `ValueError` escaping the
store layer becomes `storeError` (surfaced as a generic 500). -/
def check_opensanctions (env : MatchEnv) (kenv : KeyEnv) (threshold : Nat)
    (newJobId : String) (req : OpCheckRequest) (st : EngineState) (now : Int) :
    DispatchOutcome × EngineState :=
  if pyStrip (optStr req.requestor) = "" then (.validationError "missing_requestor", st)
  else if pyStrip req.name = "" then (.validationError "missing_name", st)
  else
    match get_valid_screening st.screened (opcheck_entity_key kenv env.parse req) now with
    | some cached => (.reused cached (opcheck_entity_key kenv env.parse req), st)
    | none =>
      if threshold ≤ get_pending_running_count st.jobs then
        match enqueue_job st.jobs newJobId (opcheck_entity_key kenv env.parse req)
            (reqName req) (reqDob req) (reqEntityType req) (reqRequestor req)
            none none "manual" none false with
        | .error e => (.storeError e, st)
        | .ok (jid, jobs2) => (.queued jid, { st with jobs := jobs2 })
      else
        let results := perform_opensanctions_check env.parse env.nowStr env.df
          (reqName req) (reqDob req) (reqEntityType req)
        match upsert_screening env.isoDate st.screened
            (opcheck_entity_key kenv env.parse req) (reqName req)
            (normalize_text (reqName req)) (reqDob req) (reqEntityType req)
            (reqRequestor req) none none results none none now with
        | .error e => (.storeError e, st)
        | .ok db2 => (.completed results (opcheck_entity_key kenv env.parse req),
                      { st with screened := db2 })

/-! ## Worker (screening_worker.py, processing of one claimed job) -/

inductive WorkerOutcome where
  /-- The job was satisfied by an existing cache row; the Matcher did not run. -/
  | reused (previous_status result_status : Option String) (transition : String)
  /-- The Matcher ran and the cache row was upserted. -/
  | screened (previous_status : Option String) (result : CheckResult)
      (result_status transition : String)
deriving DecidableEq, Repr

def WorkerOutcome.isReused : WorkerOutcome → Bool
  | .reused _ _ _ => true
  | _ => false

def transition_label (p r : String) : String :=
  if strStartsWith (pyLower p) "cleared" && strStartsWith (pyLower r) "fail" then
    "cleared_to_fail"
  else if strStartsWith (pyLower p) "fail" && strStartsWith (pyLower r) "cleared" then
    "fail_to_cleared"
  else "changed"

/-- Transition derivation in the reuse branch. -/
def reuse_transition (previous_status result_status : Option String) : String :=
  if truthyOpt previous_status && truthyOpt result_status
      && !(optStr previous_status == optStr result_status) then
    transition_label (optStr previous_status) (optStr result_status)
  else "unchanged"

/-- Transition derivation in the screen branch. -/
def screen_transition (previous_status : Option String) (result_status : String) : String :=
  if truthyOpt previous_status && result_status ≠ "" then
    if optStr previous_status = result_status then "unchanged"
    else transition_label (optStr previous_status) result_status
  else "new_result"

/-- One claimed job, as processed by the worker loop after the row moved to
`running`: read `previous_status`, reuse any row whose
`screening_valid_until > NOW()` (note: the reuse query does not test
`manual_override_stale`) unless `force_rescreen`; otherwise run the Matcher
and upsert.  `screenedAgainst` is the `(uk_hash, refresh_run_id)` pair read
from `watchlist_refresh_runs`. -/
def workerProcessJob (env : MatchEnv) (screenedAgainst : Option String × Option String)
    (job : JobRow) (db : ScreenDB) (now : Int) : WorkerOutcome × ScreenDB :=
  let previous_status : Option String := (dbFind db job.entity_key).map (fun r => r.status)
  let existing_valid : Option ScreenedRow :=
    match dbFind db job.entity_key with
    | some r => if now < r.screening_valid_until then some r else none
    | none => none
  match existing_valid, job.force_rescreen with
  | some row, false =>
    let result_status : Option String := some row.result_json.checkSummary.status
    (.reused previous_status result_status (reuse_transition previous_status result_status), db)
  | _, _ =>
    let entity_type := if job.entity_type = "" then "Person" else job.entity_type
    let result := perform_opensanctions_check env.parse env.nowStr env.df
      job.name job.date_of_birth entity_type
    let status := if result.checkSummary.status = "" then "Unknown" else result.checkSummary.status
    let transition := screen_transition previous_status status
    let newRow : ScreenedRow :=
      { display_name := job.name
        normalized_name := normalize_text job.name
        date_of_birth := job.date_of_birth.bind (fun s => env.isoDate (pyTake 10 (pyStrip s)))
        entity_type := entity_type
        last_screened_at := now
        screening_valid_until := now + 365
        status := status
        risk_level := result.riskLevel
        confidence := result.confidence
        score := result.score
        uk_sanctions_flag := uk_sanctions_from_result result
        pep_flag := result.isPep
        result_json := result
        last_requestor := some job.requestor
        -- the worker INSERT carries no business_reference/reason_for_check
        -- columns: fresh rows get NULL, the conflict UPDATE keeps old values
        business_reference := (dbFind db job.entity_key).bind (fun r => r.business_reference)
        reason_for_check := (dbFind db job.entity_key).bind (fun r => r.reason_for_check)
        updated_at := now
        screened_against_uk_hash := screenedAgainst.1
        screened_against_refresh_run_id := screenedAgainst.2
        manual_override_uk_hash := none
        manual_override_stale := false }
    (.screened previous_status result status transition, dbSet db job.entity_key newRow)

/-! ## Concrete fixtures used by witnesses and counterexamples -/

/-- Concrete `pandas.to_datetime` stand-in: the fixture dates are already in
ISO form, where the real parser is the identity. -/
def parseIso : String → Option String := fun s => some s

def envX : MatchEnv :=
  { parse := parseIso
    isoDate := fun s => some s
    nowStr := "2026-10-12 00:00:00"
    df := [] }

def kenvX : KeyEnv := { sha256hex := fun s => s }

def rowAlpha : OsnRow :=
  { schema := "Person", name := some "Alpha Beta Delta", birth_date := none,
    program_ids := some "REG-1", dataset := some "HM Treasury",
    sanctions_text := none, positions := none, source_type := "sanctions" }

def rowJohnSanc : OsnRow :=
  { schema := "Person", name := some "John Smith", birth_date := some "1950-01-01",
    program_ids := some "UK-SANC", dataset := some "HM Treasury",
    sanctions_text := none, positions := none, source_type := "sanctions" }

def rowJohnPep : OsnRow :=
  { rowJohnSanc with source_type := "peps", dataset := some "PEP dataset" }

def dfAlpha : List OsnRow := [rowAlpha]

def dfJohnBoth : List OsnRow := [rowJohnSanc, rowJohnPep]

def dfJohnSanc : List OsnRow := [rowJohnSanc]

def resultA : CheckResult := empty_no_match_result "OpenSanctions" "2026-01-01 00:00:00"

def resultFail : CheckResult :=
  { resultA with
    sanctionsName := some "John Smith"
    isSanctioned := true
    matchFound := true
    riskLevel := "High Risk"
    confidence := "High"
    score := Score.ofInt 100
    checkSummary := { status := "Fail Sanction", source := "HM Treasury", date := "D" } }

def rowA : ScreenedRow :=
  { display_name := "John Smith", normalized_name := "john smith",
    date_of_birth := none, entity_type := "Person",
    last_screened_at := 0, screening_valid_until := 100,
    status := "Cleared", risk_level := "Cleared", confidence := "Very High",
    score := Score.ofInt 0, uk_sanctions_flag := false, pep_flag := false,
    result_json := resultA, last_requestor := some "alice",
    business_reference := some "BR-1", reason_for_check := some "Client Onboarding",
    updated_at := 0, screened_against_uk_hash := none,
    screened_against_refresh_run_id := none, manual_override_uk_hash := none,
    manual_override_stale := false }

def reqBob : OpCheckRequest :=
  { name := "John Smith", dob := none, entity_type := some "Person", requestor := some "bob" }

def reqJane : OpCheckRequest :=
  { name := "Jane Doe", dob := none, entity_type := some "Person", requestor := some "carol" }

def stA : EngineState := { screened := [("john smith|person|", rowA)], jobs := [] }

def stEmpty : EngineState := { screened := [], jobs := [] }

def rowStale : ScreenedRow :=
  { rowA with
    status := "Fail Sanction"
    result_json := resultFail
    manual_override_uk_hash := some "h-old"
    manual_override_stale := true }

def dbStale : ScreenDB := [("k-stale", rowStale)]

def jobC4 : JobRow :=
  { job_id := "j-c4", entity_key := "k-stale", name := "John Smith",
    date_of_birth := none, entity_type := "Person", requestor := "worker",
    business_reference := some "BR-1", reason_for_check := some "Client Onboarding",
    reason := "manual", refresh_run_id := none, force_rescreen := false,
    status := "running" }

def jobC7 : JobRow := { jobC4 with job_id := "j-c7", entity_key := "k-fresh" }

def c7db1 : ScreenDB :=
  (upsert_screening (fun s => some s) [] "k1" "John Smith" "john smith" none "Person"
    "alice" (some "BR-1") (some "Client Onboarding") resultA none none 0).toOption.getD []

def c7worker : WorkerOutcome × ScreenDB := workerProcessJob envX (none, none) jobC7 [] 0

def rowFailK3 : ScreenedRow := { rowA with status := "Fail Sanction", result_json := resultFail }

def dbC7 : ScreenDB := [("k3", rowFailK3)]

def c7fp : Option CheckResult × ScreenDB :=
  mark_false_positive dbC7 (some { refresh_run_id := "run-1", uk_hash := some "h1" })
    "k3" "alice" (some "homonym") 0 "2026-10-12 00:00:00" "2026-10-12T00:00:00+00:00"

def rowOverride : ScreenedRow :=
  { rowA with manual_override_uk_hash := some "h-old", manual_override_stale := false }

def rowOverrideStale : ScreenedRow :=
  { rowOverride with manual_override_stale := true, updated_at := 5 }

def dbC8 : ScreenDB := [("k-ov", rowOverride), ("k-plain", rowA)]

/-! ## Character-level facts for the normaliser -/

theorem tbl_snd_lfix : ∀ p ∈ upperLowerTable, lfixChar p.2 = true := by decide

theorem tbl_fst_not_lfix : ∀ p ∈ upperLowerTable, lfixChar p.1 = false := by decide

theorem tbl_fst_not_space : ∀ p ∈ upperLowerTable, isSpaceAscii p.1 = false := by decide

theorem tbl_snd_not_space : ∀ p ∈ upperLowerTable, isSpaceAscii p.2 = false := by decide

theorem upper_has_pair :
    ∀ c ∈ asciiUppercase, (upperLowerTable.find? (fun p => p.1 == c)).isSome = true := by decide

theorem lowerChar_cases (c : Char) :
    (lowerChar c = c ∧ upperLowerTable.find? (fun p => p.1 == c) = none)
    ∨ ∃ p, p ∈ upperLowerTable ∧ p.1 = c ∧ lowerChar c = p.2 := by
  unfold lowerChar
  cases hf : upperLowerTable.find? (fun p => p.1 == c) with
  | some p =>
    right
    refine ⟨p, List.mem_of_find?_eq_some hf, ?_, rfl⟩
    simpa using List.find?_some hf
  | none => exact Or.inl ⟨rfl, rfl⟩

theorem lowerChar_lfix_of_word (c : Char) (h : isWordAscii c = true) :
    lfixChar (lowerChar c) = true := by
  rcases lowerChar_cases c with ⟨hlc, hnone⟩ | ⟨p, hm, _, hlc⟩
  · rw [hlc]
    simp only [isWordAscii, Bool.or_eq_true, decide_eq_true_eq] at h
    rcases h with ((hu | hl) | hd) | hund
    · have := upper_has_pair c hu
      rw [hnone] at this
      simp at this
    · simp only [lfixChar, Bool.or_eq_true, decide_eq_true_eq]
      exact Or.inl (Or.inl (Or.inl hl))
    · simp only [lfixChar, Bool.or_eq_true, decide_eq_true_eq]
      exact Or.inl (Or.inl (Or.inr hd))
    · simp only [lfixChar, Bool.or_eq_true]
      exact Or.inl (Or.inr hund)
  · rw [hlc]
    exact tbl_snd_lfix p hm

theorem lowerChar_fix_of_lfix (c : Char) (h : lfixChar c = true) : lowerChar c = c := by
  rcases lowerChar_cases c with ⟨hlc, _⟩ | ⟨p, hm, hp, _⟩
  · exact hlc
  · exfalso
    have := tbl_fst_not_lfix p hm
    rw [hp, h] at this
    exact Bool.true_eq_false.mp this

theorem lowerChar_fix_of_space (c : Char) (h : isSpaceAscii c = true) : lowerChar c = c := by
  rcases lowerChar_cases c with ⟨hlc, _⟩ | ⟨p, hm, hp, _⟩
  · exact hlc
  · exfalso
    have := tbl_fst_not_space p hm
    rw [hp, h] at this
    exact Bool.true_eq_false.mp this

theorem lowerChar_eq_space (c : Char) (h : lowerChar c = ' ') : c = ' ' := by
  rcases lowerChar_cases c with ⟨hlc, _⟩ | ⟨p, hm, _, hlc⟩
  · rw [hlc] at h
    exact h
  · exfalso
    rw [hlc] at h
    have := tbl_snd_not_space p hm
    rw [h] at this
    simp [isSpaceAscii] at this

theorem space_eq_of_lfix (c : Char) (hl : lfixChar c = true) (hs : isSpaceAscii c = true) :
    c = ' ' := by
  simp only [lfixChar, Bool.or_eq_true, decide_eq_true_eq] at hl
  have hlow : ∀ x ∈ asciiLowercase, isSpaceAscii x = false := by decide
  have hdig : ∀ x ∈ asciiDigits, isSpaceAscii x = false := by decide
  rcases hl with ((h1 | h2) | h3) | h4
  · rw [hlow c h1] at hs; exact absurd hs (by simp)
  · rw [hdig c h2] at hs; exact absurd hs (by simp)
  · have : c = '_' := by simpa using h3
    rw [this] at hs
    simp [isSpaceAscii] at hs
  · simpa using h4

theorem keep_of_lfix (c : Char) (h : lfixChar c = true) : keepChar c = true := by
  simp only [lfixChar, Bool.or_eq_true, decide_eq_true_eq] at h
  simp only [keepChar, isWordAscii, isSpaceAscii, Bool.or_eq_true, decide_eq_true_eq]
  rcases h with ((h1 | h2) | h3) | h4
  · exact Or.inl (Or.inl (Or.inl (Or.inr h1)))
  · exact Or.inl (Or.inl (Or.inr h2))
  · exact Or.inl (Or.inr (by simpa using h3))
  · exact Or.inr (by simp [show c = ' ' by simpa using h4])

/-! ## Whitespace collapse and trim lemmas -/

/-- No two adjacent spaces. -/
def NoDoubleSpace (a b : Char) : Prop := ¬(a = ' ' ∧ b = ' ')

theorem collapseWs_cons (c : Char) (l : List Char) :
    collapseWs (c :: l) = collapseStep c (collapseWs l) := rfl

theorem collapse_spec (l : List Char) :
    (∀ c ∈ collapseWs l, (isSpaceAscii c = true → c = ' ') ∧ (c ∈ l ∨ c = ' '))
    ∧ List.Chain' NoDoubleSpace (collapseWs l) := by
  induction l with
  | nil => exact ⟨by simp [collapseWs], by simp [collapseWs]⟩
  | cons x xs ih =>
    obtain ⟨ihm, ihc⟩ := ih
    rw [collapseWs_cons]
    unfold collapseStep
    by_cases hsx : isSpaceAscii x = true
    · rw [if_pos hsx]
      by_cases hh : (collapseWs xs).head? = some ' '
      · rw [if_pos hh]
        refine ⟨?_, ihc⟩
        intro c hc
        obtain ⟨h1, h2⟩ := ihm c hc
        exact ⟨h1, h2.imp (fun hx => List.mem_cons_of_mem x hx) id⟩
      · rw [if_neg hh]
        constructor
        · intro c hc
          rcases List.mem_cons.mp hc with hc1 | hc2
          · subst hc1
            exact ⟨fun _ => rfl, Or.inr rfl⟩
          · obtain ⟨h1, h2⟩ := ihm c hc2
            exact ⟨h1, h2.imp (fun hx => List.mem_cons_of_mem x hx) id⟩
        · refine List.chain'_cons'.mpr ⟨?_, ihc⟩
          intro b hb
          intro hcon
          apply hh
          rw [Option.mem_def] at hb
          rw [hb, hcon.2]
    · rw [if_neg hsx]
      constructor
      · intro c hc
        rcases List.mem_cons.mp hc with hc1 | hc2
        · subst hc1
          exact ⟨fun hs => absurd hs hsx, Or.inl (by simp)⟩
        · obtain ⟨h1, h2⟩ := ihm c hc2
          exact ⟨h1, h2.imp (fun hx => List.mem_cons_of_mem x hx) id⟩
      · refine List.chain'_cons'.mpr ⟨?_, ihc⟩
        intro b hb
        intro hcon
        apply hsx
        rw [hcon.1]
        decide

theorem collapse_fixed (l : List Char)
    (hsp : ∀ c ∈ l, isSpaceAscii c = true → c = ' ')
    (hch : List.Chain' NoDoubleSpace l) : collapseWs l = l := by
  induction l with
  | nil => rfl
  | cons x xs ih =>
    obtain ⟨hhead, htail⟩ := List.chain'_cons'.mp hch
    have ihx : collapseWs xs = xs :=
      ih (fun c hc hs => hsp c (List.mem_cons_of_mem x hc) hs) htail
    rw [collapseWs_cons, ihx]
    unfold collapseStep
    by_cases hsx : isSpaceAscii x = true
    · rw [if_pos hsx]
      have hxsp : x = ' ' := hsp x (List.mem_cons_self x xs) hsx
      have hh : ¬ xs.head? = some ' ' := by
        cases xs with
        | nil => simp
        | cons d rest =>
          simp only [List.head?_cons, Option.some.injEq]
          intro hd
          exact hhead d (by simp) ⟨hxsp, hd⟩
      rw [if_neg hh, hxsp]
    · rw [if_neg hsx]

theorem head?_dropWhile_false (p : α → Bool) (l : List α) :
    ∀ h ∈ (l.dropWhile p).head?, p h = false := by
  induction l with
  | nil => simp
  | cons x xs ih =>
    by_cases hx : p x = true
    · rw [List.dropWhile_cons_of_pos hx]
      exact ih
    · rw [List.dropWhile_cons_of_neg hx]
      intro h hh
      simp only [List.head?_cons, Option.mem_def, Option.some.injEq] at hh
      subst hh
      exact Bool.eq_false_iff.mpr hx

theorem trim_decompose (l : List Char) :
    ∃ B, trimSpaces l = B.reverse
      ∧ B = ((l.dropWhile isSpaceAscii).reverse.dropWhile isSpaceAscii)
      ∧ B.reverse <+: l.dropWhile isSpaceAscii := by
  refine ⟨(l.dropWhile isSpaceAscii).reverse.dropWhile isSpaceAscii, rfl, rfl, ?_⟩
  obtain ⟨C, hC⟩ := List.dropWhile_suffix
    (l := (l.dropWhile isSpaceAscii).reverse) (p := isSpaceAscii)
  refine ⟨C.reverse, ?_⟩
  have := congrArg List.reverse hC
  simpa [List.reverse_append] using this

theorem trim_head (l : List Char) :
    ∀ h ∈ (trimSpaces l).head?, isSpaceAscii h = false := by
  obtain ⟨B, hB, _, hpre⟩ := trim_decompose l
  intro h hh
  rw [hB] at hh
  obtain ⟨t, ht⟩ := hpre
  have hne : B.reverse ≠ [] := by
    intro hnil
    rw [hnil] at hh
    simp at hh
  have : (l.dropWhile isSpaceAscii).head? = some h := by
    rw [← ht, List.head?_append]
    rw [Option.mem_def] at hh
    simp [hh]
  exact head?_dropWhile_false isSpaceAscii l h this

theorem trim_last (l : List Char) :
    ∀ h ∈ (trimSpaces l).getLast?, isSpaceAscii h = false := by
  obtain ⟨B, hB, hBdef, _⟩ := trim_decompose l
  intro h hh
  rw [hB] at hh
  have hgl : B.reverse.getLast? = B.head? := by
    have := List.head?_reverse B.reverse
    rw [List.reverse_reverse] at this
    exact this.symm
  rw [hgl] at hh
  rw [hBdef] at hh
  exact head?_dropWhile_false isSpaceAscii (l.dropWhile isSpaceAscii).reverse h hh

theorem trim_within (l : List Char) : trimSpaces l <:+: l := by
  obtain ⟨B, hB, _, hpre⟩ := trim_decompose l
  rw [hB]
  exact hpre.isInfix.trans (List.dropWhile_suffix isSpaceAscii).isInfix

theorem dropWhile_eq_self_of_head (p : α → Bool) (l : List α)
    (h : ∀ x ∈ l.head?, p x = false) : l.dropWhile p = l := by
  cases l with
  | nil => rfl
  | cons x xs =>
    have hx : p x = false := h x (by simp)
    rw [List.dropWhile_cons_of_neg (by simp [hx])]

theorem trim_eq_self (l : List Char)
    (hh : ∀ x ∈ l.head?, isSpaceAscii x = false)
    (hl : ∀ x ∈ l.getLast?, isSpaceAscii x = false) : trimSpaces l = l := by
  unfold trimSpaces
  rw [dropWhile_eq_self_of_head isSpaceAscii l hh]
  have : l.reverse.dropWhile isSpaceAscii = l.reverse := by
    apply dropWhile_eq_self_of_head
    intro x hx
    rw [List.head?_reverse] at hx
    exact hl x hx
  rw [this, List.reverse_reverse]

/-! ## Canonical form of normalised text -/

def CanonChars (l : List Char) : Prop :=
  (∀ c ∈ l, lfixChar c = true)
  ∧ List.Chain' NoDoubleSpace l
  ∧ (∀ h ∈ l.head?, isSpaceAscii h = false)
  ∧ (∀ h ∈ l.getLast?, isSpaceAscii h = false)

theorem canon_normalize (fold : Char → List Char) (l : List Char) :
    CanonChars (normalizeCharsWith fold l) := by
  unfold normalizeCharsWith
  set a := (l.flatMap fold).filter keepChar with ha
  refine ⟨?_, ?_, trim_head _, trim_last _⟩
  · intro c hc
    have hc2 : c ∈ (collapseWs a).map lowerChar := (trim_within _).subset hc
    obtain ⟨c0, hc0, hlc⟩ := List.mem_map.mp hc2
    obtain ⟨hsp0, hmem0⟩ := (collapse_spec a).1 c0 hc0
    rcases hmem0 with hin | hspc
    · have hk : keepChar c0 = true := (List.mem_filter.mp (ha ▸ hin)).2
      simp only [keepChar, Bool.or_eq_true] at hk
      rcases hk with hw | hs
      · rw [← hlc]
        exact lowerChar_lfix_of_word c0 hw
      · have : c0 = ' ' := hsp0 hs
        subst this
        rw [← hlc]
        decide
    · subst hspc
      rw [← hlc]
      decide
  · have hc1 : List.Chain' NoDoubleSpace ((collapseWs a).map lowerChar) := by
      rw [List.chain'_map]
      apply List.Chain'.imp ?_ (collapse_spec a).2
      intro x y hxy hcon
      exact hxy ⟨lowerChar_eq_space x hcon.1, lowerChar_eq_space y hcon.2⟩
    exact hc1.infix (trim_within _)

theorem flatMap_fixed (fold : Char → List Char)
    (hfold : ∀ c : Char, lfixChar c = true → fold c = [c])
    (l : List Char) (hl : ∀ c ∈ l, lfixChar c = true) : l.flatMap fold = l := by
  induction l with
  | nil => rfl
  | cons x xs ih =>
    rw [List.flatMap_cons, hfold x (hl x (by simp)),
      ih (fun c hc => hl c (List.mem_cons_of_mem x hc))]
    rfl

theorem map_id_of_fixed (f : α → α) (l : List α) (h : ∀ x ∈ l, f x = x) : l.map f = l := by
  induction l with
  | nil => rfl
  | cons x xs ih =>
    rw [List.map_cons, h x (by simp), ih (fun c hc => h c (List.mem_cons_of_mem x hc))]

theorem canon_fixed (fold : Char → List Char)
    (hfold : ∀ c : Char, lfixChar c = true → fold c = [c])
    (l : List Char) (hc : CanonChars l) : normalizeCharsWith fold l = l := by
  obtain ⟨hmem, hchain, hhead, hlast⟩ := hc
  unfold normalizeCharsWith
  rw [flatMap_fixed fold hfold l hmem]
  rw [List.filter_eq_self.mpr (fun c hcm => keep_of_lfix c (hmem c hcm))]
  rw [collapse_fixed l (fun c hcm hs => space_eq_of_lfix c (hmem c hcm) hs) hchain]
  rw [map_id_of_fixed lowerChar l (fun c hcm => lowerChar_fix_of_lfix c (hmem c hcm))]
  exact trim_eq_self l hhead hlast

theorem lfix_ascii (c : Char) (h : lfixChar c = true) : nfkdAscii c = [c] := by
  simp only [lfixChar, Bool.or_eq_true, decide_eq_true_eq] at h
  have hlow : ∀ x ∈ asciiLowercase, x.toNat < 128 := by decide
  have hdig : ∀ x ∈ asciiDigits, x.toNat < 128 := by decide
  unfold nfkdAscii
  rcases h with ((h1 | h2) | h3) | h4
  · rw [if_pos (hlow c h1)]
  · rw [if_pos (hdig c h2)]
  · have hc : c = '_' := by simpa using h3
    subst hc
    decide
  · have hc : c = ' ' := by simpa using h4
    subst hc
    decide

/-- C9: text normalisation is idempotent, and consequently `derive_entity_key`
returns the same key whether given a raw name or its already-normalised form
(entity type and DOB held fixed).  The hypothesis states the one property of
the NFKD + ascii-ignore fold the proof needs: it fixes the characters that
normalisation can output (lowercase ASCII letters, digits, underscore,
space); the concrete fold `nfkdAscii` satisfies it (`lfix_ascii`). -/
theorem c9_normalize_idempotent (fold : Char → List Char) (hash : String → String)
    (parse : String → Option String)
    (hfold : ∀ c : Char, lfixChar c = true → fold c = [c])
    (s entity_type : String) (dob : Option String) :
    normalize_textWith fold (normalize_textWith fold s) = normalize_textWith fold s
    ∧ derive_entity_key hash fold parse (normalize_textWith fold s) entity_type dob
        = derive_entity_key hash fold parse s entity_type dob := by
  have hidem : ∀ t : String,
      normalize_textWith fold (normalize_textWith fold t) = normalize_textWith fold t := by
    intro t
    show (normalizeCharsWith fold (normalizeCharsWith fold t.data)).asString = _
    rw [canon_fixed fold hfold _ (canon_normalize fold t.data)]
    rfl
  refine ⟨hidem s, ?_⟩
  have hempty : normalize_textWith fold "" = "" := rfl
  have hname : normalize_textWith fold
        (if normalize_textWith fold s = "" then "" else normalize_textWith fold s)
      = normalize_textWith fold (if s = "" then "" else s) := by
    by_cases hs0 : s = ""
    · subst hs0
      simp [hempty]
    · rw [if_neg hs0]
      by_cases ht0 : normalize_textWith fold s = ""
      · rw [if_pos ht0, hempty]
        exact ht0.symm
      · rw [if_neg ht0]
        exact hidem s
  simp only [derive_entity_key]
  rw [hname]

/-- C9 witness: the idempotence and key stability evaluated on a concrete
messy input with the concrete fold. -/
theorem c9_normalize_idempotent_witness :
    normalize_textWith nfkdAscii (normalize_textWith nfkdAscii " Hello,  WORLD!! ")
      = normalize_textWith nfkdAscii " Hello,  WORLD!! "
    ∧ derive_entity_key (fun s => s) nfkdAscii parseIso
        (normalize_textWith nfkdAscii " Hello,  WORLD!! ") "Person" none
      = derive_entity_key (fun s => s) nfkdAscii parseIso " Hello,  WORLD!! " "Person" none :=
  c9_normalize_idempotent nfkdAscii (fun s => s) parseIso
    (fun c hc => lfix_ascii c hc) " Hello,  WORLD!! " "Person" none

/-! ## Store-layer claims -/

theorem dbFind_dbSet_self (db : ScreenDB) (k : String) (r : ScreenedRow) :
    dbFind (dbSet db k r) k = some r := by
  simp [dbFind, dbSet, List.find?]

/-- C10: `mark_false_positive` on an entity key with no cache row returns
null and leaves the store unchanged. -/
theorem c10_fp_missing_row (db : ScreenDB) (latestRun : Option RefreshRunInfo)
    (entity_key actor : String) (reason : Option String) (now : Int)
    (nowStr nowIso : String)
    (h : dbFind db entity_key = none) :
    mark_false_positive db latestRun entity_key actor reason now nowStr nowIso
      = (none, db) := by
  unfold mark_false_positive
  rw [h]

/-- C10 witness: evaluated on the empty store. -/
theorem c10_fp_missing_row_witness :
    dbFind [] "k-missing" = none
    ∧ mark_false_positive [] (some { refresh_run_id := "run-1", uk_hash := some "h1" })
        "k-missing" "alice" (some "homonym") 0 "S" "I" = (none, []) :=
  ⟨by decide,
   c10_fp_missing_row [] (some { refresh_run_id := "run-1", uk_hash := some "h1" })
     "k-missing" "alice" (some "homonym") 0 "S" "I" (by decide)⟩

theorem dbFind_mapVals (g : ScreenedRow → ScreenedRow) (db : ScreenDB) (k : String) :
    dbFind (db.map (fun p => (p.1, g p.2))) k = (dbFind db k).map g := by
  induction db with
  | nil => rfl
  | cons p ps ih =>
    cases hk : (p.1 == k) with
    | true => simp [dbFind, List.find?, hk]
    | false => simpa [dbFind, List.find?, hk] using ih

/-- C8: after `mark_manual_overrides_stale(h_new)`, every row whose
`manual_override_uk_hash` is non-null and different from `h_new` is stale,
and `get_valid_screening` returns null for it (at any read time). -/
theorem c8_override_staleness (db : ScreenDB) (hNew : String) (now : Int)
    (k : String) (row : ScreenedRow) (h0 : String)
    (hfind : dbFind (mark_manual_overrides_stale db hNew now) k = some row)
    (hhash : row.manual_override_uk_hash = some h0)
    (hne : h0 ≠ hNew) :
    row.manual_override_stale = true
    ∧ ∀ t : Int, get_valid_screening (mark_manual_overrides_stale db hNew now) k t = none := by
  have hparam : (if hNew = "" then "" else hNew) = hNew := by
    by_cases h : hNew = ""
    · rw [if_pos h, h]
    · rw [if_neg h]
  have hstale : row.manual_override_stale = true := by
    rw [mark_manual_overrides_stale, dbFind_mapVals] at hfind
    cases hf0 : dbFind db k with
    | none => rw [hf0] at hfind; exact absurd hfind (by simp)
    | some r0 =>
      rw [hf0] at hfind
      simp only [Option.map, Option.some.injEq] at hfind
      subst hfind
      unfold mark_stale_row
      unfold mark_stale_row at hhash
      by_cases hcv : (r0.manual_override_uk_hash.isSome
          && !((optStr r0.manual_override_uk_hash)
                == (if hNew = "" then "" else hNew))
          && r0.manual_override_stale == false) = true
      · rw [if_pos hcv]
      · rw [if_neg hcv]
        rw [if_neg hcv] at hhash
        rw [hparam] at hcv
        by_contra hns
        apply hcv
        have hA : r0.manual_override_uk_hash.isSome = true := by rw [hhash]; rfl
        have hB : ((optStr r0.manual_override_uk_hash) == hNew) = false := by
          rw [hhash]
          show (h0 == hNew) = false
          exact beq_eq_false_iff_ne.mpr hne
        have hC : (r0.manual_override_stale == false) = true := by
          cases hsv : r0.manual_override_stale
          · rfl
          · exact absurd hsv hns
        rw [hA, hB, hC]
        rfl
  refine ⟨hstale, ?_⟩
  intro t
  simp [get_valid_screening, hfind, hstale]

/-- C8 witness: a store with one differing manual override and one plain row. -/
theorem c8_override_staleness_witness :
    dbFind (mark_manual_overrides_stale dbC8 "h-new" 5) "k-ov" = some rowOverrideStale
    ∧ rowOverrideStale.manual_override_uk_hash = some "h-old"
    ∧ ("h-old" : String) ≠ "h-new"
    ∧ rowOverrideStale.manual_override_stale = true
    ∧ get_valid_screening (mark_manual_overrides_stale dbC8 "h-new" 5) "k-ov" 0 = none :=
  ⟨by decide, by decide, by decide,
   (c8_override_staleness dbC8 "h-new" 5 "k-ov" rowOverrideStale
      "h-old" (by decide) (by decide) (by decide)).1,
   (c8_override_staleness dbC8 "h-new" 5 "k-ov" rowOverrideStale
      "h-old" (by decide) (by decide) (by decide)).2 0⟩

/-- C7: every engine write of a `screened_entities` row (store upsert, worker
upsert, manual false-positive override) leaves the written row with
`screening_valid_until - last_screened_at = 365` days. -/
theorem c7_validity_window :
    (∀ (isoDate : String → Option String) (db : ScreenDB)
       (ek dn nn : String) (dob : Option String) (et rq : String)
       (br rfc : Option String) (res : CheckResult) (uk rid : Option String)
       (now : Int) (db2 : ScreenDB),
       upsert_screening isoDate db ek dn nn dob et rq br rfc res uk rid now = .ok db2 →
       (dbFind db2 ek).map (fun row => row.screening_valid_until - row.last_screened_at)
         = some 365)
    ∧ (∀ (env : MatchEnv) (sa : Option String × Option String) (job : JobRow)
       (db : ScreenDB) (now : Int) (p : Option String) (r : CheckResult)
       (rs t : String) (db2 : ScreenDB),
       workerProcessJob env sa job db now = (.screened p r rs t, db2) →
       (dbFind db2 job.entity_key).map (fun row => row.screening_valid_until - row.last_screened_at)
         = some 365)
    ∧ (∀ (db : ScreenDB) (latestRun : Option RefreshRunInfo) (ek actor : String)
       (reason : Option String) (now : Int) (nowStr nowIso : String)
       (res : CheckResult) (db2 : ScreenDB),
       mark_false_positive db latestRun ek actor reason now nowStr nowIso = (some res, db2) →
       (dbFind db2 ek).map (fun row => row.screening_valid_until - row.last_screened_at)
         = some 365) := by
  refine ⟨?_, ?_, ?_⟩
  · intro isoDate db ek dn nn dob et rq br rfc res uk rid now db2 h
    simp only [upsert_screening] at h
    split at h
    · exact absurd h (by simp)
    · split at h
      · exact absurd h (by simp)
      · simp only [Except.ok.injEq] at h
        rw [← h, dbFind_dbSet_self]
        simp only [Option.map_some']
        congr 1
        omega
  · intro env sa job db now p r rs t db2 h
    simp only [workerProcessJob] at h
    split at h
    · simp at h
    · simp only [Prod.mk.injEq, WorkerOutcome.screened.injEq] at h
      rw [← h.2, dbFind_dbSet_self]
      simp only [Option.map_some']
      congr 1
      omega
  · intro db latestRun ek actor reason now nowStr nowIso res db2 h
    simp only [mark_false_positive] at h
    split at h
    · simp at h
    · simp only [Prod.mk.injEq, Option.some.injEq] at h
      rw [← h.2, dbFind_dbSet_self]
      simp only [Option.map_some']
      congr 1
      omega

/-- C7 witness: the three write paths evaluated on concrete inputs. -/
theorem c7_validity_window_witness :
    (upsert_screening (fun s => some s) [] "k1" "John Smith" "john smith" none "Person"
        "alice" (some "BR-1") (some "Client Onboarding") resultA none none 0 = .ok c7db1
      ∧ (dbFind c7db1 "k1").map (fun row => row.screening_valid_until - row.last_screened_at)
          = some 365)
    ∧ (workerProcessJob envX (none, none) jobC7 [] 0
        = (.screened none (empty_no_match_result "OpenSanctions" envX.nowStr) "Cleared"
            "new_result", c7worker.2)
      ∧ (dbFind c7worker.2 "k-fresh").map
          (fun row => row.screening_valid_until - row.last_screened_at) = some 365)
    ∧ (mark_false_positive dbC7 (some { refresh_run_id := "run-1", uk_hash := some "h1" })
          "k3" "alice" (some "homonym") 0 "2026-10-12 00:00:00" "2026-10-12T00:00:00+00:00"
        = (some (c7fp.1.getD resultA), c7fp.2)
      ∧ (dbFind c7fp.2 "k3").map
          (fun row => row.screening_valid_until - row.last_screened_at) = some 365) := by
  refine ⟨⟨rfl, ?_⟩, ⟨by decide, ?_⟩, ⟨by decide, ?_⟩⟩
  · exact c7_validity_window.1 (fun s => some s) [] "k1" "John Smith" "john smith" none
      "Person" "alice" (some "BR-1") (some "Client Onboarding") resultA none none 0 c7db1
      rfl
  · exact c7_validity_window.2.1 envX (none, none) jobC7 [] 0 none
      (empty_no_match_result "OpenSanctions" envX.nowStr) "Cleared" "new_result" c7worker.2
      (by decide)
  · exact c7_validity_window.2.2 dbC7 (some { refresh_run_id := "run-1", uk_hash := some "h1" })
      "k3" "alice" (some "homonym") 0 "2026-10-12 00:00:00" "2026-10-12T00:00:00+00:00"
      (c7fp.1.getD resultA) c7fp.2 (by decide)

/-! ## Dispatcher claims -/

/-- C2 (amended): on a cache hit the dispatcher returns the cached verdict
(with the entity key added) and performs no write at all — in particular it
does not update the row's request metadata; the store is returned
unchanged, every field included. -/
theorem c2_reuse_amended (env : MatchEnv) (kenv : KeyEnv) (threshold : Nat)
    (newJobId : String) (req : OpCheckRequest) (st : EngineState) (now : Int)
    (cached : CheckResult)
    (hreq : pyStrip (optStr req.requestor) ≠ "")
    (hname : pyStrip req.name ≠ "")
    (hc : get_valid_screening st.screened (opcheck_entity_key kenv env.parse req) now
        = some cached) :
    check_opensanctions env kenv threshold newJobId req st now
      = (.reused cached (opcheck_entity_key kenv env.parse req), st) := by
  unfold check_opensanctions
  rw [if_neg hreq, if_neg hname, hc]

/-- C2 counterexample: a valid cached row with `last_requestor = "alice"`
and a new request by `"bob"`; the dispatcher reuses but the row still says
`"alice"` afterwards — the claimed metadata update does not happen. -/
theorem c2_counterexample :
    check_opensanctions envX kenvX 5 "job-2" reqBob stA 0
      = (.reused resultA "john smith|person|", stA)
    ∧ (dbFind (check_opensanctions envX kenvX 5 "job-2" reqBob stA 0).2.screened
        "john smith|person|").map (fun r => r.last_requestor) = some (some "alice")
    ∧ reqRequestor reqBob = "bob"
    ∧ (some "alice" : Option String) ≠ some "bob" := by
  refine ⟨by decide, by decide, by decide, by decide⟩

/-- C2 witness for the amended claim, at the same concrete store. -/
theorem c2_reuse_amended_witness :
    pyStrip (optStr reqBob.requestor) ≠ ""
    ∧ pyStrip reqBob.name ≠ ""
    ∧ get_valid_screening stA.screened (opcheck_entity_key kenvX envX.parse reqBob) 0
        = some resultA
    ∧ check_opensanctions envX kenvX 5 "job-2" reqBob stA 0
        = (.reused resultA (opcheck_entity_key kenvX envX.parse reqBob), stA) :=
  ⟨by decide, by decide, by decide,
   c2_reuse_amended envX kenvX 5 "job-2" reqBob stA 0 resultA
     (by decide) (by decide) (by decide)⟩

/-- C3: the dispatcher's load-shed path can never insert a job.  With no
cache row and queue pressure at the threshold, `enqueue_job` raises
`ValueError("business_reference is required")` because `check_opensanctions`
passes neither `business_reference` nor `reason_for_check`; no pending row
is written and no 202/queued outcome is produced, contradicting the route's
own documentation (`202 = queued due to load`). -/
theorem c3_loadshed_enqueue_raises :
    check_opensanctions envX kenvX 0 "job-1" reqJane stEmpty 0
      = (.storeError "business_reference is required", stEmpty)
    ∧ (check_opensanctions envX kenvX 0 "job-1" reqJane stEmpty 0).2.jobs = []
    ∧ (∀ outcome : DispatchOutcome,
        check_opensanctions envX kenvX 0 "job-1" reqJane stEmpty 0
          = (outcome, stEmpty) → outcome ≠ .queued "job-1") := by
  refine ⟨by decide, by decide, ?_⟩
  intro outcome h
  have h1 : check_opensanctions envX kenvX 0 "job-1" reqJane stEmpty 0
      = (.storeError "business_reference is required", stEmpty) := by decide
  rw [h1] at h
  have : outcome = .storeError "business_reference is required" := by
    exact (Prod.mk.injEq _ _ _ _ ▸ h).1.symm
  rw [this]
  decide

/-! ## Worker claim C4 -/

/-- C4 (amended): the worker completes a claimed, non-forced job by reuse
exactly when a row exists with `screening_valid_until > now()`; the reuse
query does not consult `manual_override_stale`.  On reuse the store is
unchanged. -/
theorem c4_worker_reuse_amended (env : MatchEnv) (sa : Option String × Option String)
    (job : JobRow) (db : ScreenDB) (now : Int) :
    ((workerProcessJob env sa job db now).1.isReused = true
      ↔ job.force_rescreen = false
        ∧ ∃ row, dbFind db job.entity_key = some row ∧ now < row.screening_valid_until)
    ∧ ((workerProcessJob env sa job db now).1.isReused = true
        → (workerProcessJob env sa job db now).2 = db) := by
  cases hf : dbFind db job.entity_key with
  | none =>
    cases hforce : job.force_rescreen with
    | false =>
      have hred : (workerProcessJob env sa job db now).1.isReused = false := by
        simp [workerProcessJob, hf, hforce, WorkerOutcome.isReused]
      refine ⟨⟨?_, ?_⟩, ?_⟩
      · intro h
        rw [hred] at h
        cases h
      · rintro ⟨_, row, hrow, _⟩
        cases hrow
      · intro h
        rw [hred] at h
        cases h
    | true =>
      have hred : (workerProcessJob env sa job db now).1.isReused = false := by
        simp [workerProcessJob, hf, hforce, WorkerOutcome.isReused]
      refine ⟨⟨?_, ?_⟩, ?_⟩
      · intro h
        rw [hred] at h
        cases h
      · rintro ⟨hf0, _, _, _⟩
        cases hf0
      · intro h
        rw [hred] at h
        cases h
  | some r =>
    by_cases hv : now < r.screening_valid_until
    · cases hforce : job.force_rescreen with
      | false =>
        have hred1 : (workerProcessJob env sa job db now).1.isReused = true := by
          simp [workerProcessJob, hf, if_pos hv, hforce, WorkerOutcome.isReused]
        have hred2 : (workerProcessJob env sa job db now).2 = db := by
          simp [workerProcessJob, hf, if_pos hv, hforce]
        exact ⟨⟨fun _ => ⟨rfl, r, rfl, hv⟩, fun _ => hred1⟩, fun _ => hred2⟩
      | true =>
        have hred : (workerProcessJob env sa job db now).1.isReused = false := by
          simp [workerProcessJob, hf, if_pos hv, hforce, WorkerOutcome.isReused]
        refine ⟨⟨?_, ?_⟩, ?_⟩
        · intro h
          rw [hred] at h
          cases h
        · rintro ⟨hf0, _, _, _⟩
          cases hf0
        · intro h
          rw [hred] at h
          cases h
    · cases hforce : job.force_rescreen with
      | false =>
        have hred : (workerProcessJob env sa job db now).1.isReused = false := by
          simp [workerProcessJob, hf, if_neg hv, hforce, WorkerOutcome.isReused]
        refine ⟨⟨?_, ?_⟩, ?_⟩
        · intro h
          rw [hred] at h
          cases h
        · rintro ⟨_, row, hrow, hvrow⟩
          injection hrow with hre
          subst hre
          exact absurd hvrow hv
        · intro h
          rw [hred] at h
          cases h
      | true =>
        have hred : (workerProcessJob env sa job db now).1.isReused = false := by
          simp [workerProcessJob, hf, if_neg hv, hforce, WorkerOutcome.isReused]
        refine ⟨⟨?_, ?_⟩, ?_⟩
        · intro h
          rw [hred] at h
          cases h
        · rintro ⟨hf0, _, _, _⟩
          cases hf0
        · intro h
          rw [hred] at h
          cases h

/-- C4 counterexample: a row inside its validity window but with
`manual_override_stale = true` is still reused by the worker for a
non-forced job, contradicting the claim that such a row does not satisfy
the job. -/
theorem c4_counterexample :
    (dbFind dbStale "k-stale").map (fun r => r.manual_override_stale) = some true
    ∧ jobC4.force_rescreen = false
    ∧ (workerProcessJob envX (none, none) jobC4 dbStale 0).1.isReused = true
    ∧ (workerProcessJob envX (none, none) jobC4 dbStale 0).2 = dbStale := by
  refine ⟨by decide, by decide, by decide, by decide⟩

/-- C4 witness: the amended characterisation applied at the concrete store. -/
theorem c4_worker_reuse_amended_witness :
    (workerProcessJob envX (none, none) jobC4 dbStale 0).1.isReused = true :=
  (c4_worker_reuse_amended envX (none, none) jobC4 dbStale 0).1.mpr
    ⟨by decide, rowStale, by decide, by decide⟩

/-! ## Matcher lemmas -/

theorem mem_insertScoreDesc (key : α → Score) (x a : α) (l : List α) :
    a ∈ insertScoreDesc key x l ↔ a = x ∨ a ∈ l := by
  induction l with
  | nil => simp [insertScoreDesc]
  | cons y ys ih =>
    unfold insertScoreDesc
    by_cases h : Score.le (key y) (key x)
    · rw [if_pos h]
      simp [List.mem_cons]
    · rw [if_neg h]
      simp only [List.mem_cons, ih]
      tauto

theorem mem_sortScoreDesc (key : α → Score) (a : α) (l : List α) :
    a ∈ sortScoreDesc key l ↔ a ∈ l := by
  induction l with
  | nil => simp [sortScoreDesc]
  | cons x xs ih =>
    simp [sortScoreDesc, mem_insertScoreDesc, ih]

theorem ite_keep_score (t : Int) (cc : String) (i : Nat) (S : Score) (h : MatchHit)
    (hk : (if Score.le (Score.ofInt t) S then some (⟨cc, S, i⟩ : MatchHit) else none)
        = some h) :
    Score.le (Score.ofInt t) h.score := by
  split at hk
  · rename_i hle
    injection hk with he
    subst he
    exact hle
  · cases hk

theorem gbnm_keep_score (threshold : Int) (sClean : String) (sTokens : List String)
    (i : Nat) (cClean : String) (cTokens : List String) (h : MatchHit)
    (hk : gbnm_keep threshold sClean sTokens i cClean cTokens = some h) :
    Score.le (Score.ofInt threshold) h.score := by
  simp only [gbnm_keep] at hk
  split at hk
  · cases hk
  · rename_i hlt
    split at hk
    · injection hk with he
      subst he
      exact Score.le_of_not_lt hlt
    · split at hk
      · cases hk
      · split at hk
        · cases hk
        · exact ite_keep_score threshold cClean i _ h hk

theorem gbnm_loop_score (threshold : Int) (sClean : String) (sTokens : List String) :
    ∀ (cs : List String) (i : Nat) (h : MatchHit),
      h ∈ gbnm_loop threshold sClean sTokens i cs →
      Score.le (Score.ofInt threshold) h.score := by
  intro cs
  induction cs with
  | nil =>
    intro i h hh
    cases hh
  | cons c cs ih =>
    intro i h hh
    simp only [gbnm_loop] at hh
    cases hkeep : gbnm_keep threshold sClean sTokens i (preprocess c).1 (preprocess c).2 with
    | some hv =>
      rw [hkeep] at hh
      have hh2 : h ∈ hv :: gbnm_loop threshold sClean sTokens (i + 1) cs := hh
      rcases List.mem_cons.mp hh2 with hh3 | hh4
      · subst hh3
        exact gbnm_keep_score threshold sClean sTokens i _ _ h hkeep
      · exact ih (i + 1) h hh4
    | none =>
      rw [hkeep] at hh
      exact ih (i + 1) h hh

theorem gbnm_score (search : String) (cands : List String) (limit : Nat) (threshold : Int)
    (h : MatchHit) (hh : h ∈ get_best_name_matches search cands limit threshold) :
    Score.le (Score.ofInt threshold) h.score := by
  simp only [get_best_name_matches] at hh
  have hh2 := List.take_subset _ _ hh
  rw [mem_sortScoreDesc] at hh2
  exact gbnm_loop_score threshold _ _ cands 0 h hh2

theorem best_match_from_nil (parse : String → Option String) (nn : String)
    (nd : Option String) (lim : Nat) (thr : Int) :
    best_match_from parse nn nd [] lim thr = none := rfl

theorem matcher_schema_pool_nil (et : String) : matcher_schema_pool [] et = [] := by
  simp [matcher_schema_pool]

theorem sanc_pool_nil (et : String) : sanc_pool [] et = [] := by
  rw [sanc_pool, matcher_schema_pool_nil]
  rfl

theorem pep_pool_nil (et : String) : pep_pool [] et = [] := by
  rw [pep_pool, matcher_schema_pool_nil]
  rfl

theorem top_name_suggestions_nil (s : String) (lim : Nat) (thr : Int) :
    top_name_suggestions [] s lim thr = [] := rfl

/-- The hit at the head of the sorted, DOB-filtered match list belongs to
the unfiltered match list (and, when the DOB rule is active, passed it). -/
theorem best_match_from_head (parse : String → Option String) (nn : String)
    (nd : Option String) (pool : List OsnRow) (lim : Nat) (thr : Int)
    (row : OsnRow) (sc : Score)
    (hb : best_match_from parse nn nd pool lim thr = some (row, sc)) :
    ∃ h : MatchHit,
      h ∈ get_best_name_matches nn (pool.map (fun r => optStr r.name)) lim thr
      ∧ (truthyOpt nd = true → dob_ok parse pool (nd.getD "") h = true)
      ∧ pool.get? h.idx = some row
      ∧ sc = h.score := by
  simp only [best_match_from] at hb
  by_cases hpool : pool.isEmpty = true
  · rw [if_pos hpool] at hb
    cases hb
  rw [if_neg hpool] at hb
  by_cases hhits :
      (get_best_name_matches nn (pool.map (fun r => optStr r.name)) lim thr).isEmpty = true
  · rw [if_pos hhits] at hb
    cases hb
  rw [if_neg hhits] at hb
  set hits2 := (if truthyOpt nd = true then
      List.filter (dob_ok parse pool (nd.getD ""))
        (get_best_name_matches nn (pool.map (fun r => optStr r.name)) lim thr)
    else get_best_name_matches nn (pool.map (fun r => optStr r.name)) lim thr)
    with hits2_def
  by_cases hempty : hits2.isEmpty = true
  · rw [if_pos hempty] at hb
    cases hb
  rw [if_neg hempty] at hb
  cases hsort : sortScoreDesc (fun h => h.score) hits2 with
  | nil =>
    rw [hsort] at hb
    cases hb
  | cons h tail =>
    rw [hsort] at hb
    have hmem : h ∈ hits2 := by
      rw [← mem_sortScoreDesc (fun h => h.score), hsort]
      exact List.mem_cons_self _ _
    refine ⟨h, ?_, ?_, ?_, ?_⟩
    · by_cases ht : truthyOpt nd = true
      · rw [hits2_def, if_pos ht] at hmem
        exact (List.mem_filter.mp hmem).1
      · rw [hits2_def, if_neg ht] at hmem
        exact hmem
    · intro ht
      rw [hits2_def, if_pos ht] at hmem
      exact (List.mem_filter.mp hmem).2
    · have hb2 : Option.map (fun r => (r, h.score)) (pool.get? h.idx) = some (row, sc) := hb
      cases hg : pool.get? h.idx with
      | none =>
        rw [hg] at hb2
        cases hb2
      | some r =>
        rw [hg] at hb2
        injection hb2 with hpair
        have hpair2 : (r, h.score) = (row, sc) := hpair
        rw [((Prod.mk.injEq _ _ _ _).mp hpair2).1]
    · have hb2 : Option.map (fun r => (r, h.score)) (pool.get? h.idx) = some (row, sc) := hb
      cases hg : pool.get? h.idx with
      | none =>
        rw [hg] at hb2
        cases hb2
      | some r =>
        rw [hg] at hb2
        injection hb2 with hpair
        have hpair2 : (r, h.score) = (row, sc) := hpair
        exact (((Prod.mk.injEq _ _ _ _).mp hpair2).2).symm

theorem best_match_from_score (parse : String → Option String) (nn : String)
    (nd : Option String) (pool : List OsnRow) (lim : Nat) (thr : Int)
    (row : OsnRow) (sc : Score)
    (hb : best_match_from parse nn nd pool lim thr = some (row, sc)) :
    Score.le (Score.ofInt thr) sc := by
  obtain ⟨h, hmem, _, _, hsc⟩ := best_match_from_head parse nn nd pool lim thr row sc hb
  rw [hsc]
  exact gbnm_score nn _ lim thr h hmem

theorem best_match_from_dob (parse : String → Option String) (nn : String)
    (d : String) (pool : List OsnRow) (lim : Nat) (thr : Int)
    (row : OsnRow) (sc : Score)
    (hd : d ≠ "")
    (hb : best_match_from parse nn (some d) pool lim thr = some (row, sc)) :
    parse_dob_field parse row.birth_date = some d := by
  obtain ⟨h, _, hdob, hget, _⟩ := best_match_from_head parse nn (some d) pool lim thr row sc hb
  have ht : truthyOpt (some d) = true := by
    simp [truthyOpt, hd]
  have hd2 := hdob ht
  unfold dob_ok at hd2
  rw [hget] at hd2
  have hd3 : (match parse_dob_field parse row.birth_date with
      | some t => t ≠ "" && t == d
      | none => false) = true := hd2
  cases hp : parse_dob_field parse row.birth_date with
  | none =>
    rw [hp] at hd3
    cases hd3
  | some t =>
    rw [hp] at hd3
    have hd4 : (t ≠ "" && t == d) = true := hd3
    simp only [Bool.and_eq_true, beq_iff_eq, decide_eq_true_eq] at hd4
    rw [hd4.2]

theorem best_match_from_dob_none (parse : String → Option String) (nn : String)
    (d : String) (pool : List OsnRow) (lim : Nat) (thr : Int)
    (hd : d ≠ "")
    (hall : ∀ row ∈ pool, parse_dob_field parse row.birth_date ≠ some d) :
    best_match_from parse nn (some d) pool lim thr = none := by
  have ht : truthyOpt (some d) = true := by
    simp [truthyOpt, hd]
  have hfilter : List.filter (dob_ok parse pool ((some d : Option String).getD ""))
      (get_best_name_matches nn (pool.map (fun r => optStr r.name)) lim thr) = [] := by
    rw [List.filter_eq_nil_iff]
    intro h _
    unfold dob_ok
    cases hg : pool.get? h.idx with
    | none => simp
    | some r =>
      have hr : r ∈ pool := List.get?_mem hg
      intro hcontra
      have hc2 : (match parse_dob_field parse r.birth_date with
          | some t => decide (t ≠ "") && (t == d)
          | none => false) = true := hcontra
      cases hp : parse_dob_field parse r.birth_date with
      | none =>
        rw [hp] at hc2
        exact Bool.noConfusion (show false = true from hc2)
      | some t =>
        rw [hp] at hc2
        have hc3 : (decide (t ≠ "") && (t == d)) = true := hc2
        simp only [Bool.and_eq_true, beq_iff_eq, decide_eq_true_eq] at hc3
        exact absurd (hp.trans (by rw [hc3.2])) (hall r hr)
  simp only [best_match_from]
  split
  · rfl
  · split
    · rfl
    · rw [hfilter]
      rfl

/-! ## C5: matching threshold -/

/-- C5 (amended): every candidate kept by `get_best_name_matches` scores at
least the threshold in effect, re-checked after penalties; the authoritative
selection (`best_match_from`, as called by the matcher) passes threshold 75,
not 80, so an authoritative match is only guaranteed a score of at least 75,
and the verdict score of any found match is at least 75. -/
theorem c5_threshold_amended :
    (∀ (search : String) (cands : List String) (limit : Nat) (threshold : Int)
       (h : MatchHit), h ∈ get_best_name_matches search cands limit threshold →
       Score.le (Score.ofInt threshold) h.score)
    ∧ (∀ (parse : String → Option String) (nn : String) (nd : Option String)
         (pool : List OsnRow) (lim : Nat) (thr : Int) (row : OsnRow) (sc : Score),
       best_match_from parse nn nd pool lim thr = some (row, sc) →
       Score.le (Score.ofInt thr) sc)
    ∧ (∀ (parse : String → Option String) (nowStr : String) (df : List OsnRow)
         (name : String) (dob : Option String) (et : String),
       (perform_opensanctions_check parse nowStr df name dob et).matchFound = true →
       Score.le (Score.ofInt 75) (perform_opensanctions_check parse nowStr df name dob et).score) := by
  refine ⟨gbnm_score, best_match_from_score, ?_⟩
  intro parse nowStr df name dob et hm
  cases hdf : df.isEmpty with
  | true =>
    exfalso
    rw [perform_opensanctions_check, if_pos hdf] at hm
    cases hm
  | false =>
    rw [perform_opensanctions_check, if_neg (by simp [hdf])] at hm ⊢
    cases hs : best_match_from parse (normalize_text name) (normalize_dob parse dob)
        (sanc_pool df et) 50 75 with
    | some v =>
      obtain ⟨vr, vsc⟩ := v
      exact best_match_from_score parse _ _ _ 50 75 vr vsc hs
    | none =>
      cases hp : best_match_from parse (normalize_text name) (normalize_dob parse dob)
          (pep_pool df et) 50 75 with
      | some w =>
        obtain ⟨wr, wsc⟩ := w
        exact best_match_from_score parse _ _ _ 50 75 wr wsc hp
      | none =>
        exfalso
        rw [hs, hp] at hm
        have hm2 : false = true := hm
        cases hm2

/-- C5 counterexample: "alpha beta gamma" against candidate
"Alpha Beta Delta" scores 1000/13 (about 76.9), below 80, yet becomes the
authoritative sanctions match driving the verdict — the claimed threshold
of 80 does not hold on the authoritative path, which uses 75. -/
theorem c5_counterexample :
    (perform_opensanctions_check parseIso "D" dfAlpha
        "Alpha Beta Gamma" none "Person").matchFound = true
    ∧ (perform_opensanctions_check parseIso "D" dfAlpha
        "Alpha Beta Gamma" none "Person").checkSummary.status = "Fail Sanction"
    ∧ Score.lt (perform_opensanctions_check parseIso "D" dfAlpha
        "Alpha Beta Gamma" none "Person").score (Score.ofInt 80)
    ∧ (perform_opensanctions_check parseIso "D" dfAlpha
        "Alpha Beta Gamma" none "Person").score = ⟨2000, 26⟩ := by
  refine ⟨by decide, by decide, by decide, by decide⟩

/-- C5 witness: the amended floor of 75 holds at the concrete below-80
match. -/
theorem c5_threshold_amended_witness :
    (perform_opensanctions_check parseIso "D" dfAlpha
        "Alpha Beta Gamma" none "Person").matchFound = true
    ∧ Score.le (Score.ofInt 75) (perform_opensanctions_check parseIso "D" dfAlpha
        "Alpha Beta Gamma" none "Person").score :=
  ⟨by decide,
   c5_threshold_amended.2.2 parseIso "D" dfAlpha "Alpha Beta Gamma" none "Person" (by decide)⟩

/-! ## C1: verdict when both pools match -/

/-- C1 (amended): when both the sanctions pool and the PEP pool yield an
authoritative best match, the result has `is_sanctioned = true` and
`is_pep = true`, but its status stays `"Fail Sanction"` — the code never
upgrades it to `"Fail Sanction & PEP"` (that string occurs nowhere in the
source); the PEP hit is reflected only in `is_pep` and the source label. -/
theorem c1_both_pools_amended (parse : String → Option String) (nowStr : String)
    (df : List OsnRow) (name : String) (dob : Option String) (et : String)
    (sRow : OsnRow) (sScore : Score) (pRow : OsnRow) (pScore : Score)
    (hs : best_match_from parse (normalize_text name) (normalize_dob parse dob)
        (sanc_pool df et) 50 75 = some (sRow, sScore))
    (hp : best_match_from parse (normalize_text name) (normalize_dob parse dob)
        (pep_pool df et) 50 75 = some (pRow, pScore)) :
    (perform_opensanctions_check parse nowStr df name dob et).checkSummary.status
        = "Fail Sanction"
    ∧ (perform_opensanctions_check parse nowStr df name dob et).isSanctioned = true
    ∧ (perform_opensanctions_check parse nowStr df name dob et).isPep = true := by
  have hdf : df.isEmpty = false := by
    cases hdfe : df.isEmpty with
    | false => rfl
    | true =>
      exfalso
      have hnil : df = [] := by simpa using hdfe
      rw [hnil, sanc_pool_nil, best_match_from_nil] at hs
      cases hs
  rw [perform_opensanctions_check, if_neg (by simp [hdf]), hs, hp]
  exact ⟨rfl, rfl, rfl⟩

/-- C1 counterexample: an identical name on both lists; both pools match
with score 100, yet the status is `"Fail Sanction"`, not the claimed
`"Fail Sanction & PEP"`. -/
theorem c1_counterexample :
    best_match_from parseIso (normalize_text "John Smith") (normalize_dob parseIso none)
        (sanc_pool dfJohnBoth "Person") 50 75 = some (rowJohnSanc, ⟨100, 1⟩)
    ∧ best_match_from parseIso (normalize_text "John Smith") (normalize_dob parseIso none)
        (pep_pool dfJohnBoth "Person") 50 75 = some (rowJohnPep, ⟨100, 1⟩)
    ∧ (perform_opensanctions_check parseIso "D" dfJohnBoth
        "John Smith" none "Person").checkSummary.status = "Fail Sanction"
    ∧ (perform_opensanctions_check parseIso "D" dfJohnBoth
        "John Smith" none "Person").checkSummary.status ≠ "Fail Sanction & PEP"
    ∧ (perform_opensanctions_check parseIso "D" dfJohnBoth
        "John Smith" none "Person").isPep = true
    ∧ (perform_opensanctions_check parseIso "D" dfJohnBoth
        "John Smith" none "Person").isSanctioned = true := by
  refine ⟨by decide, by decide, by decide, by decide, by decide, by decide⟩

/-- C1 witness for the amended claim, at the same concrete snapshot. -/
theorem c1_both_pools_amended_witness :
    best_match_from parseIso (normalize_text "John Smith") (normalize_dob parseIso none)
        (sanc_pool dfJohnBoth "Person") 50 75 = some (rowJohnSanc, ⟨100, 1⟩)
    ∧ best_match_from parseIso (normalize_text "John Smith") (normalize_dob parseIso none)
        (pep_pool dfJohnBoth "Person") 50 75 = some (rowJohnPep, ⟨100, 1⟩)
    ∧ ((perform_opensanctions_check parseIso "D" dfJohnBoth
          "John Smith" none "Person").checkSummary.status = "Fail Sanction"
       ∧ (perform_opensanctions_check parseIso "D" dfJohnBoth
          "John Smith" none "Person").isSanctioned = true
       ∧ (perform_opensanctions_check parseIso "D" dfJohnBoth
          "John Smith" none "Person").isPep = true) :=
  ⟨by decide, by decide,
   c1_both_pools_amended parseIso "D" dfJohnBoth "John Smith" none "Person"
     rowJohnSanc ⟨100, 1⟩ rowJohnPep ⟨100, 1⟩ (by decide) (by decide)⟩

/-! ## C6: DOB gating -/

/-- C6: when the request supplies a canonical DOB, the authoritative
selection only ever returns a candidate whose canonicalised birth date
equals it; if every candidate of a pool disagrees (or has a null birth
date), that pool yields no authoritative match; and when both pools yield
nothing the verdict is Cleared while `top_matches` still carries the
DOB-blind name suggestions. -/
theorem c6_dob_gating (parse : String → Option String) (nowStr : String)
    (df : List OsnRow) (name : String) (dob : Option String) (et : String) (d : String)
    (hd : normalize_dob parse dob = some d) (hne : d ≠ "") :
    (∀ (pool : List OsnRow) (lim : Nat) (thr : Int) (row : OsnRow) (sc : Score),
       best_match_from parse (normalize_text name) (some d) pool lim thr = some (row, sc) →
       parse_dob_field parse row.birth_date = some d)
    ∧ (∀ (pool : List OsnRow) (lim : Nat) (thr : Int),
       (∀ row ∈ pool, parse_dob_field parse row.birth_date ≠ some d) →
       best_match_from parse (normalize_text name) (some d) pool lim thr = none)
    ∧ (best_match_from parse (normalize_text name) (normalize_dob parse dob)
          (sanc_pool df et) 50 75 = none →
       best_match_from parse (normalize_text name) (normalize_dob parse dob)
          (pep_pool df et) 50 75 = none →
       (perform_opensanctions_check parse nowStr df name dob et).checkSummary.status = "Cleared"
       ∧ (perform_opensanctions_check parse nowStr df name dob et).riskLevel = "Cleared"
       ∧ (perform_opensanctions_check parse nowStr df name dob et).topMatches
           = top_name_suggestions (sanc_pool df et ++ pep_pool df et)
               (normalize_text name) 5 60) := by
  refine ⟨?_, ?_, ?_⟩
  · intro pool lim thr row sc hb
    exact best_match_from_dob parse (normalize_text name) d pool lim thr row sc hne hb
  · intro pool lim thr hall
    exact best_match_from_dob_none parse (normalize_text name) d pool lim thr hne hall
  · intro h1 h2
    cases hdf : df.isEmpty with
    | true =>
      have hnil : df = [] := by simpa using hdf
      subst hnil
      rw [perform_opensanctions_check, if_pos (by simp)]
      refine ⟨rfl, rfl, ?_⟩
      rw [sanc_pool_nil, pep_pool_nil]
      rfl
    | false =>
      rw [perform_opensanctions_check, if_neg (by simp [hdf]), h1, h2]
      exact ⟨rfl, rfl, rfl⟩

/-- C6 witness: a sanctions row with DOB 1950-01-01 queried with DOB
1960-01-01 yields no authoritative match and a Cleared verdict, while the
name-only suggestion list still carries the near-match. -/
theorem c6_dob_gating_witness :
    normalize_dob parseIso (some "1960-01-01") = some "1960-01-01"
    ∧ ("1960-01-01" : String) ≠ ""
    ∧ best_match_from parseIso (normalize_text "John Smith")
        (normalize_dob parseIso (some "1960-01-01")) (sanc_pool dfJohnSanc "Person")
        50 75 = none
    ∧ ((perform_opensanctions_check parseIso "D" dfJohnSanc "John Smith"
          (some "1960-01-01") "Person").checkSummary.status = "Cleared"
       ∧ (perform_opensanctions_check parseIso "D" dfJohnSanc "John Smith"
          (some "1960-01-01") "Person").riskLevel = "Cleared"
       ∧ (perform_opensanctions_check parseIso "D" dfJohnSanc "John Smith"
          (some "1960-01-01") "Person").topMatches
           = top_name_suggestions (sanc_pool dfJohnSanc "Person" ++ pep_pool dfJohnSanc "Person")
               (normalize_text "John Smith") 5 60)
    ∧ (perform_opensanctions_check parseIso "D" dfJohnSanc "John Smith"
        (some "1960-01-01") "Person").topMatches = [("John Smith", 100)] :=
  ⟨by decide, by decide, by decide,
   (c6_dob_gating parseIso "D" dfJohnSanc "John Smith" (some "1960-01-01") "Person"
      "1960-01-01" (by decide) (by decide)).2.2 (by decide) (by decide),
   by decide⟩

end SanctionsAPI
